import Mathlib

/-!
Verification of the job-coordination core of `td/telegram/files/FileLoadManager.cpp`.

The coordinator is embedded as an explicit state machine: a `FileLoadManager`
state together with an executable `step` function that processes one incoming
message (a caller-facing operation, the actor `hangup` signal, or a
worker-originated event carrying a delivery token) and returns the new state
plus the list of outward effects (caller callbacks and resource-pool
admissions).  A `CHECK` failure in the source is modelled as `step` returning
`none` (process abort).  Filesystem pass-through helpers (`get_content`,
`read_file_part`, `unlink_file`, location checks) hold no coordinator state
and are outside the modelled core, as is the byte-level worker logic.
-/

set_option maxHeartbeats 1000000

namespace TdF

/-- Association-list lookup on `Nat` keys, used to model both `std::map`
(`query_id_to_node_id_`, the resource-manager maps) and the slot table of the
node container. -/
def lookupKey {α : Type} (k : Nat) : List (Nat × α) → Option α
  | [] => none
  | p :: rest => if p.1 = k then some p.2 else lookupKey k rest

/-- Association-list erase on `Nat` keys (removes every binding of the key;
keys are kept unique by the state invariants). -/
def eraseKey {α : Type} (k : Nat) : List (Nat × α) → List (Nat × α)
  | [] => []
  | p :: rest => if p.1 = k then eraseKey k rest else p :: eraseKey k rest

@[simp] theorem lookupKey_nil {α : Type} (k : Nat) :
    lookupKey (α := α) k [] = none := rfl

@[simp] theorem lookupKey_cons {α : Type} (k : Nat) (p : Nat × α) (l : List (Nat × α)) :
    lookupKey k (p :: l) = if p.1 = k then some p.2 else lookupKey k l := rfl

theorem lookupKey_eq_none_iff {α : Type} (k : Nat) (l : List (Nat × α)) :
    lookupKey k l = none ↔ k ∉ l.map Prod.fst := by
  induction l with
  | nil => simp
  | cons p rest ih =>
    rw [lookupKey_cons, List.map_cons, List.mem_cons]
    by_cases h : p.1 = k
    · simp [h]
    · simp only [h, if_false, ih]
      constructor
      · intro hn hor
        rcases hor with h1 | h1
        · exact h h1.symm
        · exact hn h1
      · intro hn h1
        exact hn (Or.inr h1)

theorem mem_of_lookupKey {α : Type} {k : Nat} {l : List (Nat × α)} {v : α}
    (h : lookupKey k l = some v) : (k, v) ∈ l := by
  induction l with
  | nil => simp at h
  | cons p rest ih =>
    rw [lookupKey_cons] at h
    split at h
    · rename_i hp
      cases h
      simp_all [Prod.ext_iff]
    · exact List.mem_cons_of_mem _ (ih h)

theorem lookupKey_of_mem_of_nodup {α : Type} {k : Nat} {l : List (Nat × α)} {v : α}
    (hmem : (k, v) ∈ l) (hnd : (l.map Prod.fst).Nodup) : lookupKey k l = some v := by
  induction l with
  | nil => simp at hmem
  | cons p rest ih =>
    simp only [List.map_cons, List.nodup_cons] at hnd
    rcases List.mem_cons.mp hmem with h | h
    · subst h; simp
    · have hk : p.1 ≠ k := by
        intro he
        exact hnd.1 (he ▸ (List.mem_map.mpr ⟨(k, v), h, rfl⟩))
      simp [hk, ih h hnd.2]

theorem mem_eraseKey {α : Type} {k : Nat} {l : List (Nat × α)} {p : Nat × α}
    (h : p ∈ eraseKey k l) : p ∈ l ∧ p.1 ≠ k := by
  induction l with
  | nil => simp [eraseKey] at h
  | cons q rest ih =>
    rw [eraseKey] at h
    split at h
    · exact ⟨List.mem_cons_of_mem _ (ih h).1, (ih h).2⟩
    · rename_i hq
      rcases List.mem_cons.mp h with h' | h'
      · exact ⟨h' ▸ List.mem_cons_self _ _, by simp [h', hq]⟩
      · exact ⟨List.mem_cons_of_mem _ (ih h').1, (ih h').2⟩

theorem eraseKey_sublist {α : Type} (k : Nat) (l : List (Nat × α)) :
    (eraseKey k l).Sublist l := by
  induction l with
  | nil => simp [eraseKey]
  | cons q rest ih =>
    rw [eraseKey]
    split
    · exact ih.cons _
    · exact ih.cons₂ _

@[simp] theorem lookupKey_eraseKey_self {α : Type} (k : Nat) (l : List (Nat × α)) :
    lookupKey k (eraseKey k l) = none := by
  induction l with
  | nil => simp [eraseKey]
  | cons q rest ih =>
    rw [eraseKey]
    split
    · exact ih
    · rename_i hq
      simp [hq, ih]

theorem lookupKey_eraseKey_of_ne {α : Type} {k k' : Nat} (h : k ≠ k') (l : List (Nat × α)) :
    lookupKey k (eraseKey k' l) = lookupKey k l := by
  induction l with
  | nil => simp [eraseKey]
  | cons q rest ih =>
    rw [eraseKey]
    split
    · rename_i hq
      have : q.1 ≠ k := by rw [hq]; exact fun he => h he.symm
      simp [this, ih]
    · simp [ih]

theorem lookupKey_eraseKey_none {α : Type} {k k' : Nat} {l : List (Nat × α)}
    (h : lookupKey k l = none) : lookupKey k (eraseKey k' l) = none := by
  rw [lookupKey_eq_none_iff] at h ⊢
  intro hmem
  rcases List.mem_map.mp hmem with ⟨p, hp, hfst⟩
  exact h (List.mem_map.mpr ⟨p, (mem_eraseKey hp).1, hfst⟩)

theorem eraseKey_of_not_mem {α : Type} {k : Nat} {l : List (Nat × α)}
    (h : k ∉ l.map Prod.fst) : eraseKey k l = l := by
  induction l with
  | nil => rfl
  | cons q rest ih =>
    simp only [List.map_cons, List.mem_cons, not_or] at h
    rw [eraseKey, if_neg (fun he => h.1 he.symm), ih h.2]

theorem lookupKey_map_value {α β : Type} (f : α → β) (k : Nat) (l : List (Nat × α)) :
    lookupKey k (l.map (fun p => (p.1, f p.2))) = (lookupKey k l).map f := by
  induction l with
  | nil => simp
  | cons q rest ih =>
    by_cases h : q.1 = k <;> simp [h, ih]

/-! ## Data model -/

/-- The external facts read through `G()`: `G()->parameters().use_file_db`,
`G()->get_option_boolean("is_premium")` and `G()->get_webfile_dc_id()`. -/
structure Config where
  use_file_db : Bool
  is_premium : Bool
  webfile_dc_id : Nat
deriving DecidableEq, Repr

/-- The `ResourceManager::Mode` enum. -/
inductive Mode
  | Baseline
  | Greedy
deriving DecidableEq, Repr

/-- One `ResourceManager` actor as observable from the coordinator: its
identity and the construction parameters fixed when `create_actor` runs. -/
structure ResourceManager where
  pool_id : Nat
  max_resource_limit : Int
  mode : Mode
deriving DecidableEq, Repr

/-- A registry `Node`: the caller token (`query_id_`) and whether the node
still owns its loader actor (`loader_`; reset by `hangup`). -/
structure Node where
  query_id : Nat
  loader : Bool
deriving DecidableEq, Repr

/-- Modelled from the spec: `nodes_container_` is a `td::Container`, a
stable-handle slot arena with generation-checked handles (the container's own
source is not under `src/`).  It is modelled with monotonically fresh integer
ids, which gives the same observable resolution semantics the spec requires:
a handle of a reclaimed entry never resolves again, and never aliases a later
entry. -/
structure Container (α : Type) where
  next_id : Nat
  items : List (Nat × α)
deriving DecidableEq, Repr

namespace Container

def create {α : Type} (c : Container α) (v : α) : Container α × Nat :=
  (⟨c.next_id + 1, (c.next_id, v) :: c.items⟩, c.next_id)

def get {α : Type} (c : Container α) (n : Nat) : Option α :=
  lookupKey n c.items

def erase {α : Type} (c : Container α) (n : Nat) : Container α :=
  ⟨c.next_id, eraseKey n c.items⟩

def empty {α : Type} (c : Container α) : Bool :=
  c.items.isEmpty

end Container

/-- Caller-visible events sent through `callback_`, each tagged with the
originating caller token (`query_id_`). -/
inductive CallbackEvent
  | on_start_download (query_id : Nat)
  | on_partial_download (query_id : Nat) (ready_size : Int) (size : Int)
  | on_hash (query_id : Nat) (hash : String)
  | on_partial_upload (query_id : Nat) (ready_size : Int)
  | on_download_ok (query_id : Nat) (size : Int) (is_new : Bool)
  | on_upload_ok (query_id : Nat) (size : Int)
  | on_upload_full_ok (query_id : Nat)
  | on_error (query_id : Nat) (status : String)
deriving DecidableEq, Repr

/-- Outward effects of one step: a callback to the caller, a
`ResourceManager::register_worker` admission into the pool with the given
identity, or a message forwarded to a job's loader actor. -/
inductive Effect
  | callback (e : CallbackEvent)
  | register_worker (pool_id : Nat) (priority : Int)
  | to_loader (node_id : Nat)
deriving DecidableEq, Repr

/-- The coordinator state: the fields of `FileLoadManager`. -/
structure FileLoadManager where
  nodes_container : Container Node
  query_id_to_node_id : List (Nat × Nat)
  stop_flag : Bool
  stopped : Bool
  max_download_resource_limit : Int
  upload_resource_manager : ResourceManager
  download_resource_manager_map : List (Nat × ResourceManager)
  download_small_resource_manager_map : List (Nat × ResourceManager)
  next_pool_id : Nat
deriving DecidableEq, Repr

/-- Modelled from the spec: the base metered download budget
(`max_download_resource_limit_`'s initializer lives in the header, which is
not under `src/`).  The numeric value is immaterial to every claim; only the
start-up-time multiplication by 8 matters. -/
def base_download_resource_limit : Int := 2 ^ 21

/-- The `MAX_UPLOAD_RESOURCE_LIMIT` constant of `start_up` (`4 << 20`). -/
def MAX_UPLOAD_RESOURCE_LIMIT : Int := 4 * 2 ^ 20

/-- The size-class test of `FileLoadManager::download`:
`bool is_small = size < 20 * 1024;`. -/
def download_is_small (size : Int) : Bool := size < 20 * 1024

namespace FileLoadManager

/-- The state right after construction plus `start_up`: the upload resource
manager is created (`Greedy` when no file database is configured, `Baseline`
otherwise), and the download budget is multiplied by 8 when the account is
premium.  Both external facts are read exactly once, here. -/
def startUp (cfg : Config) : FileLoadManager where
  nodes_container := ⟨0, []⟩
  query_id_to_node_id := []
  stop_flag := false
  stopped := false
  max_download_resource_limit :=
    if cfg.is_premium then base_download_resource_limit * 8
    else base_download_resource_limit
  upload_resource_manager :=
    { pool_id := 0
      max_resource_limit := MAX_UPLOAD_RESOURCE_LIMIT
      mode := if cfg.use_file_db then Mode.Baseline else Mode.Greedy }
  download_resource_manager_map := []
  download_small_resource_manager_map := []
  next_pool_id := 1

/-- `FileLoadManager::get_download_resource_manager`: look up the pool for
`(is_small, dc_id)` in the matching map, lazily creating it (with the current
download budget and `Mode::Baseline`) when absent. -/
def get_download_resource_manager (s : FileLoadManager) (is_small : Bool) (dc_id : Nat) :
    FileLoadManager × ResourceManager :=
  let m := if is_small then s.download_small_resource_manager_map
           else s.download_resource_manager_map
  match lookupKey dc_id m with
  | some actor => (s, actor)
  | none =>
    let actor : ResourceManager :=
      { pool_id := s.next_pool_id
        max_resource_limit := s.max_download_resource_limit
        mode := Mode.Baseline }
    if is_small then
      ({ s with download_small_resource_manager_map := (dc_id, actor) :: m
                next_pool_id := s.next_pool_id + 1 }, actor)
    else
      ({ s with download_resource_manager_map := (dc_id, actor) :: m
                next_pool_id := s.next_pool_id + 1 }, actor)

/-- `FileLoadManager::loop`: once stopping and the container is empty, the
actor stops (`stop()`), modelled by the `stopped` flag. -/
def loop (s : FileLoadManager) : FileLoadManager :=
  if s.stop_flag && s.nodes_container.empty then { s with stopped := true } else s

/-- `FileLoadManager::close_node`: `CHECK(node)` (modelled as `none` on
failure), then erase the token mapping and the container entry. -/
def close_node (s : FileLoadManager) (node_id : Nat) : Option FileLoadManager :=
  match s.nodes_container.get node_id with
  | none => none
  | some node =>
    some { s with
            query_id_to_node_id := eraseKey node.query_id s.query_id_to_node_id
            nodes_container := s.nodes_container.erase node_id }

/-- `FileLoadManager::download`: drop when stopping; create the node, select
the download pool by size-class and destination, admit the loader, then
`emplace` the token mapping with `CHECK(is_inserted)`. -/
def download (cfg : Config) (s : FileLoadManager) (query_id : Nat) (is_web : Bool)
    (dc_id0 : Nat) (size : Int) (priority : Int) :
    Option (FileLoadManager × List Effect) :=
  if s.stop_flag then some (s, []) else
    let cr := s.nodes_container.create { query_id := query_id, loader := true }
    let node_id := cr.2
    let s1 : FileLoadManager := { s with nodes_container := cr.1 }
    let dc_id := if is_web then cfg.webfile_dc_id else dc_id0
    let res := s1.get_download_resource_manager (download_is_small size) dc_id
    if (lookupKey query_id res.1.query_id_to_node_id).isSome then none
    else
      some ({ res.1 with query_id_to_node_id := (query_id, node_id) :: res.1.query_id_to_node_id },
            [Effect.register_worker res.2.pool_id priority])

/-- `FileLoadManager::upload`: drop when stopping; create the node, admit the
uploader into the shared upload pool, then `emplace` with
`CHECK(is_inserted)`. -/
def upload (s : FileLoadManager) (query_id : Nat) (priority : Int) :
    Option (FileLoadManager × List Effect) :=
  if s.stop_flag then some (s, []) else
    let cr := s.nodes_container.create { query_id := query_id, loader := true }
    let node_id := cr.2
    let s1 : FileLoadManager := { s with nodes_container := cr.1 }
    if (lookupKey query_id s1.query_id_to_node_id).isSome then none
    else
      some ({ s1 with query_id_to_node_id := (query_id, node_id) :: s1.query_id_to_node_id },
            [Effect.register_worker s.upload_resource_manager.pool_id priority])

/-- `FileLoadManager::upload_by_hash`: same shape as `upload`, admitting into
the same shared upload pool. -/
def upload_by_hash (s : FileLoadManager) (query_id : Nat) (priority : Int) :
    Option (FileLoadManager × List Effect) :=
  if s.stop_flag then some (s, []) else
    let cr := s.nodes_container.create { query_id := query_id, loader := true }
    let node_id := cr.2
    let s1 : FileLoadManager := { s with nodes_container := cr.1 }
    if (lookupKey query_id s1.query_id_to_node_id).isSome then none
    else
      some ({ s1 with query_id_to_node_id := (query_id, node_id) :: s1.query_id_to_node_id },
            [Effect.register_worker s.upload_resource_manager.pool_id priority])

/-- `FileLoadManager::from_bytes`: drop when stopping; create the node and the
`FileFromBytes` worker, then `emplace` with `CHECK(is_inserted)`.  Note the
source registers this worker with no resource manager. -/
def from_bytes (s : FileLoadManager) (query_id : Nat) :
    Option (FileLoadManager × List Effect) :=
  if s.stop_flag then some (s, []) else
    let cr := s.nodes_container.create { query_id := query_id, loader := true }
    let node_id := cr.2
    let s1 : FileLoadManager := { s with nodes_container := cr.1 }
    if (lookupKey query_id s1.query_id_to_node_id).isSome then none
    else
      some ({ s1 with query_id_to_node_id := (query_id, node_id) :: s1.query_id_to_node_id },
            [])

/-- `FileLoadManager::update_priority`: drop when stopping, silent no-op on an
unknown token or an unresolvable node, else forward to the loader. -/
def update_priority (s : FileLoadManager) (query_id : Nat) :
    Option (FileLoadManager × List Effect) :=
  if s.stop_flag then some (s, []) else
    match lookupKey query_id s.query_id_to_node_id with
    | none => some (s, [])
    | some node_id =>
      match s.nodes_container.get node_id with
      | none => some (s, [])
      | some _ => some (s, [Effect.to_loader node_id])

/-- `FileLoadManager::update_local_file_location`: same dispatch shape as
`update_priority`. -/
def update_local_file_location (s : FileLoadManager) (query_id : Nat) :
    Option (FileLoadManager × List Effect) :=
  if s.stop_flag then some (s, []) else
    match lookupKey query_id s.query_id_to_node_id with
    | none => some (s, [])
    | some node_id =>
      match s.nodes_container.get node_id with
      | none => some (s, [])
      | some _ => some (s, [Effect.to_loader node_id])

/-- `FileLoadManager::update_downloaded_part`: same dispatch shape as
`update_priority`. -/
def update_downloaded_part (s : FileLoadManager) (query_id : Nat) :
    Option (FileLoadManager × List Effect) :=
  if s.stop_flag then some (s, []) else
    match lookupKey query_id s.query_id_to_node_id with
    | none => some (s, [])
    | some node_id =>
      match s.nodes_container.get node_id with
      | none => some (s, [])
      | some _ => some (s, [Effect.to_loader node_id])

/-- `FileLoadManager::on_error_impl`: resolve the delivery token (drop when it
fails), forward `on_error` to the caller unless stopping, then `close_node`
and `loop`. -/
def on_error_impl (s : FileLoadManager) (node_id : Nat) (status : String) :
    Option (FileLoadManager × List Effect) :=
  match s.nodes_container.get node_id with
  | none => some (s, [])
  | some node =>
    match s.close_node node_id with
    | none => none
    | some s1 =>
      some (s1.loop,
        if s.stop_flag then []
        else [Effect.callback (CallbackEvent.on_error node.query_id status)])

/-- `FileLoadManager::cancel`: drop when stopping, silent no-op on an unknown
token, else synthesize a Canceled failure through `on_error_impl`. -/
def cancel (s : FileLoadManager) (query_id : Nat) :
    Option (FileLoadManager × List Effect) :=
  if s.stop_flag then some (s, []) else
    match lookupKey query_id s.query_id_to_node_id with
    | none => some (s, [])
    | some node_id => s.on_error_impl node_id ("Canceled")

/-- `FileLoadManager::hangup`: release every node's loader ownership, set the
stop flag, and run `loop`. -/
def hangup (s : FileLoadManager) : Option (FileLoadManager × List Effect) :=
  let c : Container Node :=
    ⟨s.nodes_container.next_id,
     s.nodes_container.items.map (fun p => (p.1, ⟨(p.2).query_id, false⟩))⟩
  some (FileLoadManager.loop { s with nodes_container := c, stop_flag := true }, [])

/-- `FileLoadManager::on_start_download`: resolve the delivery token, drop on
failure, forward unless stopping. -/
def on_start_download (s : FileLoadManager) (node_id : Nat) :
    Option (FileLoadManager × List Effect) :=
  match s.nodes_container.get node_id with
  | none => some (s, [])
  | some node =>
    some (s, if s.stop_flag then []
             else [Effect.callback (CallbackEvent.on_start_download node.query_id)])

/-- `FileLoadManager::on_partial_download`. -/
def on_partial_download (s : FileLoadManager) (node_id : Nat) (ready_size : Int) (size : Int) :
    Option (FileLoadManager × List Effect) :=
  match s.nodes_container.get node_id with
  | none => some (s, [])
  | some node =>
    some (s, if s.stop_flag then []
             else [Effect.callback (CallbackEvent.on_partial_download node.query_id ready_size size)])

/-- `FileLoadManager::on_hash`. -/
def on_hash (s : FileLoadManager) (node_id : Nat) (hash : String) :
    Option (FileLoadManager × List Effect) :=
  match s.nodes_container.get node_id with
  | none => some (s, [])
  | some node =>
    some (s, if s.stop_flag then []
             else [Effect.callback (CallbackEvent.on_hash node.query_id hash)])

/-- `FileLoadManager::on_partial_upload`. -/
def on_partial_upload (s : FileLoadManager) (node_id : Nat) (ready_size : Int) :
    Option (FileLoadManager × List Effect) :=
  match s.nodes_container.get node_id with
  | none => some (s, [])
  | some node =>
    some (s, if s.stop_flag then []
             else [Effect.callback (CallbackEvent.on_partial_upload node.query_id ready_size)])

/-- `FileLoadManager::on_ok_download`: resolve the delivery token, forward the
completion unless stopping, then `close_node` and `loop`. -/
def on_ok_download (s : FileLoadManager) (node_id : Nat) (size : Int) (is_new : Bool) :
    Option (FileLoadManager × List Effect) :=
  match s.nodes_container.get node_id with
  | none => some (s, [])
  | some node =>
    match s.close_node node_id with
    | none => none
    | some s1 =>
      some (s1.loop,
        if s.stop_flag then []
        else [Effect.callback (CallbackEvent.on_download_ok node.query_id size is_new)])

/-- `FileLoadManager::on_ok_upload`. -/
def on_ok_upload (s : FileLoadManager) (node_id : Nat) (size : Int) :
    Option (FileLoadManager × List Effect) :=
  match s.nodes_container.get node_id with
  | none => some (s, [])
  | some node =>
    match s.close_node node_id with
    | none => none
    | some s1 =>
      some (s1.loop,
        if s.stop_flag then []
        else [Effect.callback (CallbackEvent.on_upload_ok node.query_id size)])

/-- `FileLoadManager::on_ok_upload_full`. -/
def on_ok_upload_full (s : FileLoadManager) (node_id : Nat) :
    Option (FileLoadManager × List Effect) :=
  match s.nodes_container.get node_id with
  | none => some (s, [])
  | some node =>
    match s.close_node node_id with
    | none => none
    | some s1 =>
      some (s1.loop,
        if s.stop_flag then []
        else [Effect.callback (CallbackEvent.on_upload_full_ok node.query_id)])

/-- `FileLoadManager::hangup_shared`: a loader actor signalled its death; the
link token is converted into a synthesized Canceled failure. -/
def hangup_shared (s : FileLoadManager) (node_id : Nat) :
    Option (FileLoadManager × List Effect) :=
  s.on_error_impl node_id ("Canceled")

end FileLoadManager

/-- The messages the coordinator actor can receive: caller-facing operations,
the actor `hangup` signal, and worker-originated events carrying a delivery
token.  Payload fields the coordinator merely forwards (names, keys,
locations) are elided. -/
inductive Msg
  | download (query_id : Nat) (is_web : Bool) (dc_id : Nat) (size : Int)
      (offset : Int) (limit : Int) (priority : Int)
  | upload (query_id : Nat) (expected_size : Int) (priority : Int)
  | upload_by_hash (query_id : Nat) (size : Int) (priority : Int)
  | from_bytes (query_id : Nat)
  | update_priority (query_id : Nat) (priority : Int)
  | update_local_file_location (query_id : Nat)
  | update_downloaded_part (query_id : Nat) (offset : Int) (limit : Int)
  | cancel (query_id : Nat)
  | hangup
  | on_start_download (token : Nat)
  | on_partial_download (token : Nat) (ready_size : Int) (size : Int)
  | on_hash (token : Nat) (hash : String)
  | on_partial_upload (token : Nat) (ready_size : Int)
  | on_ok_download (token : Nat) (size : Int) (is_new : Bool)
  | on_ok_upload (token : Nat) (size : Int)
  | on_ok_upload_full (token : Nat)
  | on_error (token : Nat) (status : String)
  | hangup_shared (token : Nat)
deriving DecidableEq, Repr

open FileLoadManager in
/-- One serialized actor step: dispatch a message to the matching
`FileLoadManager` handler.  `none` models a `CHECK` failure (process abort). -/
def step (cfg : Config) (s : FileLoadManager) : Msg → Option (FileLoadManager × List Effect)
  | Msg.download q w dc size _off _lim pr => s.download cfg q w dc size pr
  | Msg.upload q _sz pr => s.upload q pr
  | Msg.upload_by_hash q _sz pr => s.upload_by_hash q pr
  | Msg.from_bytes q => s.from_bytes q
  | Msg.update_priority q _pr => s.update_priority q
  | Msg.update_local_file_location q => s.update_local_file_location q
  | Msg.update_downloaded_part q _off _lim => s.update_downloaded_part q
  | Msg.cancel q => s.cancel q
  | Msg.hangup => s.hangup
  | Msg.on_start_download n => s.on_start_download n
  | Msg.on_partial_download n r sz => s.on_partial_download n r sz
  | Msg.on_hash n h => s.on_hash n h
  | Msg.on_partial_upload n r => s.on_partial_upload n r
  | Msg.on_ok_download n sz inew => s.on_ok_download n sz inew
  | Msg.on_ok_upload n sz => s.on_ok_upload n sz
  | Msg.on_ok_upload_full n => s.on_ok_upload_full n
  | Msg.on_error n st => s.on_error_impl n st
  | Msg.hangup_shared n => s.hangup_shared n

/-- Total wrapper of `step`, for stating results positionally. -/
def stepD (cfg : Config) (s : FileLoadManager) (m : Msg) : FileLoadManager × List Effect :=
  (step cfg s m).getD (s, [])

/-- Run a list of messages in order; a `CHECK` failure aborts the run. -/
def run (cfg : Config) (s : FileLoadManager) : List Msg → Option FileLoadManager
  | [] => some s
  | m :: ms =>
    match step cfg s m with
    | none => none
    | some (s', _) => run cfg s' ms

/-- Total wrapper of `run`. -/
def runD (cfg : Config) (s : FileLoadManager) (ms : List Msg) : FileLoadManager :=
  (run cfg s ms).getD s

/-- The delivery token of a worker-originated event, when the message is one. -/
def event_token : Msg → Option Nat
  | Msg.on_start_download n => some n
  | Msg.on_partial_download n _ _ => some n
  | Msg.on_hash n _ => some n
  | Msg.on_partial_upload n _ => some n
  | Msg.on_ok_download n _ _ => some n
  | Msg.on_ok_upload n _ => some n
  | Msg.on_ok_upload_full n => some n
  | Msg.on_error n _ => some n
  | Msg.hangup_shared n => some n
  | _ => none

/-- The delivery token of a terminal worker event (completion, failure, or the
loader-death signal), when the message is one. -/
def terminal_token : Msg → Option Nat
  | Msg.on_ok_download n _ _ => some n
  | Msg.on_ok_upload n _ => some n
  | Msg.on_ok_upload_full n => some n
  | Msg.on_error n _ => some n
  | Msg.hangup_shared n => some n
  | _ => none

/-- Caller-facing operations (the public interface of the coordinator). -/
def caller_msg : Msg → Bool
  | Msg.download .. => true
  | Msg.upload .. => true
  | Msg.upload_by_hash .. => true
  | Msg.from_bytes .. => true
  | Msg.update_priority .. => true
  | Msg.update_local_file_location .. => true
  | Msg.update_downloaded_part .. => true
  | Msg.cancel .. => true
  | _ => false

/-! ## Basic facts about the state operations -/

namespace FileLoadManager

@[simp] theorem get_drm_nodes (s : FileLoadManager) (b : Bool) (d : Nat) :
    (s.get_download_resource_manager b d).1.nodes_container = s.nodes_container := by
  simp only [get_download_resource_manager]
  split
  · rfl
  · split <;> rfl

@[simp] theorem get_drm_qmap (s : FileLoadManager) (b : Bool) (d : Nat) :
    (s.get_download_resource_manager b d).1.query_id_to_node_id = s.query_id_to_node_id := by
  simp only [get_download_resource_manager]
  split
  · rfl
  · split <;> rfl

@[simp] theorem get_drm_stop (s : FileLoadManager) (b : Bool) (d : Nat) :
    (s.get_download_resource_manager b d).1.stop_flag = s.stop_flag := by
  simp only [get_download_resource_manager]
  split
  · rfl
  · split <;> rfl

@[simp] theorem get_drm_stopped (s : FileLoadManager) (b : Bool) (d : Nat) :
    (s.get_download_resource_manager b d).1.stopped = s.stopped := by
  simp only [get_download_resource_manager]
  split
  · rfl
  · split <;> rfl

@[simp] theorem get_drm_limit (s : FileLoadManager) (b : Bool) (d : Nat) :
    (s.get_download_resource_manager b d).1.max_download_resource_limit =
      s.max_download_resource_limit := by
  simp only [get_download_resource_manager]
  split
  · rfl
  · split <;> rfl

@[simp] theorem get_drm_upload_rm (s : FileLoadManager) (b : Bool) (d : Nat) :
    (s.get_download_resource_manager b d).1.upload_resource_manager =
      s.upload_resource_manager := by
  simp only [get_download_resource_manager]
  split
  · rfl
  · split <;> rfl

@[simp] theorem loop_nodes (s : FileLoadManager) : s.loop.nodes_container = s.nodes_container := by
  unfold loop; split <;> rfl

@[simp] theorem loop_qmap (s : FileLoadManager) :
    s.loop.query_id_to_node_id = s.query_id_to_node_id := by
  unfold loop; split <;> rfl

@[simp] theorem loop_stop (s : FileLoadManager) : s.loop.stop_flag = s.stop_flag := by
  unfold loop; split <;> rfl

@[simp] theorem loop_limit (s : FileLoadManager) :
    s.loop.max_download_resource_limit = s.max_download_resource_limit := by
  unfold loop; split <;> rfl

@[simp] theorem loop_upload_rm (s : FileLoadManager) :
    s.loop.upload_resource_manager = s.upload_resource_manager := by
  unfold loop; split <;> rfl

@[simp] theorem loop_small_map (s : FileLoadManager) :
    s.loop.download_small_resource_manager_map = s.download_small_resource_manager_map := by
  unfold loop; split <;> rfl

@[simp] theorem loop_large_map (s : FileLoadManager) :
    s.loop.download_resource_manager_map = s.download_resource_manager_map := by
  unfold loop; split <;> rfl

@[simp] theorem loop_next_pool (s : FileLoadManager) :
    s.loop.next_pool_id = s.next_pool_id := by
  unfold loop; split <;> rfl

/-- Characterization of a successful `close_node`. -/
theorem close_node_spec {s : FileLoadManager} {n : Nat} {s1 : FileLoadManager}
    (h : s.close_node n = some s1) :
    ∃ node, s.nodes_container.get n = some node ∧
      s1 = { s with
              query_id_to_node_id := eraseKey node.query_id s.query_id_to_node_id
              nodes_container := s.nodes_container.erase n } := by
  unfold close_node at h
  cases hget : s.nodes_container.get n with
  | none => rw [hget] at h; cases h
  | some node =>
    rw [hget] at h
    injection h with h1
    exact ⟨node, rfl, h1.symm⟩

theorem close_node_isSome {s : FileLoadManager} {n : Nat} {node : Node}
    (h : s.nodes_container.get n = some node) :
    s.close_node n =
      some { s with
              query_id_to_node_id := eraseKey node.query_id s.query_id_to_node_id
              nodes_container := s.nodes_container.erase n } := by
  unfold close_node
  rw [h]

end FileLoadManager

/-! ## The registry invariant -/

/-- The registry invariant tying `nodes_container_` to `query_id_to_node_id_`:
handles are unique and below the allocation counter, caller tokens are unique,
every token mapping resolves to a node carrying that token, and every node's
token maps back to its handle. -/
structure RegInv (c : Container Node) (qm : List (Nat × Nat)) : Prop where
  ids_nodup : (c.items.map Prod.fst).Nodup
  ids_lt : ∀ p ∈ c.items, p.1 < c.next_id
  keys_nodup : (qm.map Prod.fst).Nodup
  map_to_node : ∀ p ∈ qm, ∃ node, lookupKey p.2 c.items = some node ∧ node.query_id = p.1
  node_to_map : ∀ p ∈ c.items, lookupKey (p.2).query_id qm = some p.1

/-- The coordinator invariant: the registry invariant on the live state. -/
abbrev Inv (s : FileLoadManager) : Prop :=
  RegInv s.nodes_container s.query_id_to_node_id

theorem regInv_insert {c : Container Node} {qm : List (Nat × Nat)} (h : RegInv c qm)
    (q : Nat) (b : Bool) (hq : lookupKey q qm = none) :
    RegInv ⟨c.next_id + 1, (c.next_id, ⟨q, b⟩) :: c.items⟩ ((q, c.next_id) :: qm) := by
  obtain ⟨h1, h2, h3, h4, h5⟩ := h
  refine ⟨?_, ?_, ?_, ?_, ?_⟩
  · rw [List.map_cons, List.nodup_cons]
    refine ⟨fun hmem => ?_, h1⟩
    rcases List.mem_map.mp hmem with ⟨p, hp, hfst⟩
    exact absurd (hfst ▸ h2 p hp) (lt_irrefl _)
  · intro p hp
    rcases List.mem_cons.mp hp with h' | h'
    · rw [h']; exact Nat.lt_succ_self _
    · exact Nat.lt_succ_of_lt (h2 p h')
  · rw [List.map_cons, List.nodup_cons]
    exact ⟨(lookupKey_eq_none_iff q qm).mp hq, h3⟩
  · intro p hp
    rcases List.mem_cons.mp hp with h' | h'
    · refine ⟨⟨q, b⟩, ?_, ?_⟩
      · rw [h']; simp
      · rw [h']
    · obtain ⟨node, hnode, hqid⟩ := h4 p h'
      have hlt : p.2 < c.next_id := h2 (p.2, node) (mem_of_lookupKey hnode)
      have hne : c.next_id ≠ p.2 := fun he => absurd (he ▸ hlt) (lt_irrefl _)
      exact ⟨node, by simp [hne, hnode], hqid⟩
  · intro p hp
    rcases List.mem_cons.mp hp with h' | h'
    · rw [h']; simp
    · have hold := h5 p h'
      have hne : ¬ q = (p.2).query_id := by
        intro he
        rw [← he] at hold
        rw [hold] at hq
        cases hq
      simp [hne, hold]

theorem regInv_close {c : Container Node} {qm : List (Nat × Nat)} (h : RegInv c qm)
    {n : Nat} {node : Node} (hn : lookupKey n c.items = some node) :
    RegInv ⟨c.next_id, eraseKey n c.items⟩ (eraseKey node.query_id qm) := by
  obtain ⟨h1, h2, h3, h4, h5⟩ := h
  refine ⟨?_, ?_, ?_, ?_, ?_⟩
  · exact h1.sublist ((eraseKey_sublist n c.items).map Prod.fst)
  · intro p hp
    exact h2 p (mem_eraseKey hp).1
  · exact h3.sublist ((eraseKey_sublist node.query_id qm).map Prod.fst)
  · intro p hp
    obtain ⟨hpmem, hpne⟩ := mem_eraseKey hp
    obtain ⟨node', hnode', hqid⟩ := h4 p hpmem
    have hne : p.2 ≠ n := by
      intro he
      rw [he, hn] at hnode'
      injection hnode' with h'
      exact hpne (by rw [← hqid, h'])
    exact ⟨node', by rwa [lookupKey_eraseKey_of_ne hne], hqid⟩
  · intro p hp
    obtain ⟨hpmem, hpne⟩ := mem_eraseKey hp
    have hold := h5 p hpmem
    have hne : (p.2).query_id ≠ node.query_id := by
      intro he
      have hmap := h5 (n, node) (mem_of_lookupKey hn)
      rw [he] at hold
      rw [hold] at hmap
      injection hmap with h'
      exact hpne h'
    rwa [lookupKey_eraseKey_of_ne hne]

theorem regInv_hangup {c : Container Node} {qm : List (Nat × Nat)} (h : RegInv c qm) :
    RegInv ⟨c.next_id, c.items.map (fun p => (p.1, ⟨(p.2).query_id, false⟩))⟩ qm := by
  obtain ⟨h1, h2, h3, h4, h5⟩ := h
  refine ⟨?_, ?_, h3, ?_, ?_⟩
  · have hfst : (c.items.map (fun p => (p.1, (⟨(p.2).query_id, false⟩ : Node)))).map Prod.fst =
        c.items.map Prod.fst := by
      rw [List.map_map]; rfl
    rw [hfst]; exact h1
  · intro p hp
    rcases List.mem_map.mp hp with ⟨p0, hp0, hpe⟩
    rw [← hpe]
    exact h2 p0 hp0
  · intro p hp
    obtain ⟨node, hnode, hqid⟩ := h4 p hp
    refine ⟨⟨node.query_id, false⟩, ?_, hqid⟩
    rw [lookupKey_map_value (fun nd => (⟨nd.query_id, false⟩ : Node)) p.2 c.items, hnode]
    rfl
  · intro p hp
    rcases List.mem_map.mp hp with ⟨p0, hp0, hpe⟩
    rw [← hpe]
    exact h5 p0 hp0

/-- The creation pattern shared by the four job-creation operations. -/
theorem Inv_insert_state {s s' : FileLoadManager} (q : Nat) (b : Bool)
    (hc : s'.nodes_container =
      ⟨s.nodes_container.next_id + 1,
       (s.nodes_container.next_id, ⟨q, b⟩) :: s.nodes_container.items⟩)
    (hm : s'.query_id_to_node_id = (q, s.nodes_container.next_id) :: s.query_id_to_node_id)
    (hq : lookupKey q s.query_id_to_node_id = none)
    (h : Inv s) : Inv s' := by
  unfold Inv
  rw [hc, hm]
  exact regInv_insert h q b hq

theorem Inv_close_state {s : FileLoadManager} {n : Nat} {s1 : FileLoadManager}
    (hclose : s.close_node n = some s1) (h : Inv s) : Inv s1 := by
  obtain ⟨node, hget, rfl⟩ := FileLoadManager.close_node_spec hclose
  unfold Inv
  exact regInv_close h hget

theorem Inv_loop {s : FileLoadManager} (h : Inv s) : Inv s.loop := by
  unfold Inv
  rw [FileLoadManager.loop_nodes, FileLoadManager.loop_qmap]
  exact h

theorem Inv_download {cfg : Config} {s : FileLoadManager} {q : Nat} {w : Bool} {dc : Nat}
    {sz pr : Int} {s' : FileLoadManager} {effs : List Effect}
    (hstep : FileLoadManager.download cfg s q w dc sz pr = some (s', effs))
    (h : Inv s) : Inv s' := by
  unfold FileLoadManager.download at hstep
  by_cases hstop : s.stop_flag
  · rw [if_pos hstop] at hstep
    injection hstep with h1
    injection h1 with h2 h3
    subst h2
    exact h
  · rw [if_neg hstop] at hstep
    simp only [FileLoadManager.get_drm_qmap, FileLoadManager.get_drm_nodes] at hstep
    by_cases hq : (lookupKey q s.query_id_to_node_id).isSome
    · rw [if_pos hq] at hstep
      cases hstep
    · rw [if_neg hq] at hstep
      injection hstep with h1
      injection h1 with h2 h3
      subst h2
      refine Inv_insert_state q true ?_ ?_ (Option.not_isSome_iff_eq_none.mp hq) h
      · simp [Container.create]
      · simp [Container.create]

theorem Inv_upload {s : FileLoadManager} {q : Nat} {pr : Int}
    {s' : FileLoadManager} {effs : List Effect}
    (hstep : FileLoadManager.upload s q pr = some (s', effs))
    (h : Inv s) : Inv s' := by
  unfold FileLoadManager.upload at hstep
  by_cases hstop : s.stop_flag
  · rw [if_pos hstop] at hstep
    injection hstep with h1
    injection h1 with h2 h3
    subst h2
    exact h
  · rw [if_neg hstop] at hstep
    simp only [] at hstep
    by_cases hq : (lookupKey q s.query_id_to_node_id).isSome
    · rw [if_pos hq] at hstep
      cases hstep
    · rw [if_neg hq] at hstep
      injection hstep with h1
      injection h1 with h2 h3
      subst h2
      refine Inv_insert_state q true ?_ ?_ (Option.not_isSome_iff_eq_none.mp hq) h
      · simp [Container.create]
      · simp [Container.create]

theorem Inv_upload_by_hash {s : FileLoadManager} {q : Nat} {pr : Int}
    {s' : FileLoadManager} {effs : List Effect}
    (hstep : FileLoadManager.upload_by_hash s q pr = some (s', effs))
    (h : Inv s) : Inv s' := by
  unfold FileLoadManager.upload_by_hash at hstep
  by_cases hstop : s.stop_flag
  · rw [if_pos hstop] at hstep
    injection hstep with h1
    injection h1 with h2 h3
    subst h2
    exact h
  · rw [if_neg hstop] at hstep
    simp only [] at hstep
    by_cases hq : (lookupKey q s.query_id_to_node_id).isSome
    · rw [if_pos hq] at hstep
      cases hstep
    · rw [if_neg hq] at hstep
      injection hstep with h1
      injection h1 with h2 h3
      subst h2
      refine Inv_insert_state q true ?_ ?_ (Option.not_isSome_iff_eq_none.mp hq) h
      · simp [Container.create]
      · simp [Container.create]

theorem Inv_from_bytes {s : FileLoadManager} {q : Nat}
    {s' : FileLoadManager} {effs : List Effect}
    (hstep : FileLoadManager.from_bytes s q = some (s', effs))
    (h : Inv s) : Inv s' := by
  unfold FileLoadManager.from_bytes at hstep
  by_cases hstop : s.stop_flag
  · rw [if_pos hstop] at hstep
    injection hstep with h1
    injection h1 with h2 h3
    subst h2
    exact h
  · rw [if_neg hstop] at hstep
    simp only [] at hstep
    by_cases hq : (lookupKey q s.query_id_to_node_id).isSome
    · rw [if_pos hq] at hstep
      cases hstep
    · rw [if_neg hq] at hstep
      injection hstep with h1
      injection h1 with h2 h3
      subst h2
      refine Inv_insert_state q true ?_ ?_ (Option.not_isSome_iff_eq_none.mp hq) h
      · simp [Container.create]
      · simp [Container.create]

theorem Inv_update_priority {s : FileLoadManager} {q : Nat}
    {s' : FileLoadManager} {effs : List Effect}
    (hstep : FileLoadManager.update_priority s q = some (s', effs))
    (h : Inv s) : Inv s' := by
  unfold FileLoadManager.update_priority at hstep
  by_cases hstop : s.stop_flag
  · rw [if_pos hstop] at hstep
    injection hstep with h1
    injection h1 with h2 h3
    subst h2
    exact h
  · rw [if_neg hstop] at hstep
    cases hq : lookupKey q s.query_id_to_node_id with
    | none =>
      rw [hq] at hstep
      simp only [] at hstep
      injection hstep with h1
      injection h1 with h2 h3
      subst h2
      exact h
    | some node_id =>
      rw [hq] at hstep
      simp only [] at hstep
      cases hget : s.nodes_container.get node_id with
      | none =>
        rw [hget] at hstep
        simp only [] at hstep
        injection hstep with h1
        injection h1 with h2 h3
        subst h2
        exact h
      | some node =>
        rw [hget] at hstep
        simp only [] at hstep
        injection hstep with h1
        injection h1 with h2 h3
        subst h2
        exact h

theorem Inv_update_local_file_location {s : FileLoadManager} {q : Nat}
    {s' : FileLoadManager} {effs : List Effect}
    (hstep : FileLoadManager.update_local_file_location s q = some (s', effs))
    (h : Inv s) : Inv s' := by
  unfold FileLoadManager.update_local_file_location at hstep
  by_cases hstop : s.stop_flag
  · rw [if_pos hstop] at hstep
    injection hstep with h1
    injection h1 with h2 h3
    subst h2
    exact h
  · rw [if_neg hstop] at hstep
    cases hq : lookupKey q s.query_id_to_node_id with
    | none =>
      rw [hq] at hstep
      simp only [] at hstep
      injection hstep with h1
      injection h1 with h2 h3
      subst h2
      exact h
    | some node_id =>
      rw [hq] at hstep
      simp only [] at hstep
      cases hget : s.nodes_container.get node_id with
      | none =>
        rw [hget] at hstep
        simp only [] at hstep
        injection hstep with h1
        injection h1 with h2 h3
        subst h2
        exact h
      | some node =>
        rw [hget] at hstep
        simp only [] at hstep
        injection hstep with h1
        injection h1 with h2 h3
        subst h2
        exact h

theorem Inv_update_downloaded_part {s : FileLoadManager} {q : Nat}
    {s' : FileLoadManager} {effs : List Effect}
    (hstep : FileLoadManager.update_downloaded_part s q = some (s', effs))
    (h : Inv s) : Inv s' := by
  unfold FileLoadManager.update_downloaded_part at hstep
  by_cases hstop : s.stop_flag
  · rw [if_pos hstop] at hstep
    injection hstep with h1
    injection h1 with h2 h3
    subst h2
    exact h
  · rw [if_neg hstop] at hstep
    cases hq : lookupKey q s.query_id_to_node_id with
    | none =>
      rw [hq] at hstep
      simp only [] at hstep
      injection hstep with h1
      injection h1 with h2 h3
      subst h2
      exact h
    | some node_id =>
      rw [hq] at hstep
      simp only [] at hstep
      cases hget : s.nodes_container.get node_id with
      | none =>
        rw [hget] at hstep
        simp only [] at hstep
        injection hstep with h1
        injection h1 with h2 h3
        subst h2
        exact h
      | some node =>
        rw [hget] at hstep
        simp only [] at hstep
        injection hstep with h1
        injection h1 with h2 h3
        subst h2
        exact h

theorem Inv_on_error_impl {s : FileLoadManager} {n : Nat} {st : String}
    {s' : FileLoadManager} {effs : List Effect}
    (hstep : s.on_error_impl n st = some (s', effs)) (h : Inv s) : Inv s' := by
  unfold FileLoadManager.on_error_impl at hstep
  cases hget : s.nodes_container.get n with
  | none =>
    rw [hget] at hstep
    simp only [] at hstep
    injection hstep with h1
    injection h1 with h2 h3
    subst h2
    exact h
  | some node =>
    rw [hget] at hstep
    simp only [] at hstep
    cases hclose : s.close_node n with
    | none =>
      rw [hclose] at hstep
      simp only [] at hstep
      cases hstep
    | some s1 =>
      rw [hclose] at hstep
      simp only [] at hstep
      injection hstep with h1
      injection h1 with h2 h3
      subst h2
      exact Inv_loop (Inv_close_state hclose h)

theorem Inv_cancel {s : FileLoadManager} {q : Nat}
    {s' : FileLoadManager} {effs : List Effect}
    (hstep : FileLoadManager.cancel s q = some (s', effs)) (h : Inv s) : Inv s' := by
  unfold FileLoadManager.cancel at hstep
  by_cases hstop : s.stop_flag
  · rw [if_pos hstop] at hstep
    injection hstep with h1
    injection h1 with h2 h3
    subst h2
    exact h
  · rw [if_neg hstop] at hstep
    cases hq : lookupKey q s.query_id_to_node_id with
    | none =>
      rw [hq] at hstep
      simp only [] at hstep
      injection hstep with h1
      injection h1 with h2 h3
      subst h2
      exact h
    | some node_id =>
      rw [hq] at hstep
      simp only [] at hstep
      exact Inv_on_error_impl hstep h

theorem Inv_hangup {s : FileLoadManager} {s' : FileLoadManager} {effs : List Effect}
    (hstep : FileLoadManager.hangup s = some (s', effs)) (h : Inv s) : Inv s' := by
  unfold FileLoadManager.hangup at hstep
  simp only [] at hstep
  injection hstep with h1
  injection h1 with h2 h3
  subst h2
  exact Inv_loop (regInv_hangup h)

theorem Inv_on_start_download {s : FileLoadManager} {n : Nat}
    {s' : FileLoadManager} {effs : List Effect}
    (hstep : s.on_start_download n = some (s', effs)) (h : Inv s) : Inv s' := by
  unfold FileLoadManager.on_start_download at hstep
  cases hget : s.nodes_container.get n with
  | none =>
    rw [hget] at hstep
    simp only [] at hstep
    injection hstep with h1
    injection h1 with h2 h3
    subst h2
    exact h
  | some node =>
    rw [hget] at hstep
    simp only [] at hstep
    injection hstep with h1
    injection h1 with h2 h3
    subst h2
    exact h

theorem Inv_on_partial_download {s : FileLoadManager} {n : Nat} {r sz : Int}
    {s' : FileLoadManager} {effs : List Effect}
    (hstep : s.on_partial_download n r sz = some (s', effs)) (h : Inv s) : Inv s' := by
  unfold FileLoadManager.on_partial_download at hstep
  cases hget : s.nodes_container.get n with
  | none =>
    rw [hget] at hstep
    simp only [] at hstep
    injection hstep with h1
    injection h1 with h2 h3
    subst h2
    exact h
  | some node =>
    rw [hget] at hstep
    simp only [] at hstep
    injection hstep with h1
    injection h1 with h2 h3
    subst h2
    exact h

theorem Inv_on_hash {s : FileLoadManager} {n : Nat} {hs : String}
    {s' : FileLoadManager} {effs : List Effect}
    (hstep : s.on_hash n hs = some (s', effs)) (h : Inv s) : Inv s' := by
  unfold FileLoadManager.on_hash at hstep
  cases hget : s.nodes_container.get n with
  | none =>
    rw [hget] at hstep
    simp only [] at hstep
    injection hstep with h1
    injection h1 with h2 h3
    subst h2
    exact h
  | some node =>
    rw [hget] at hstep
    simp only [] at hstep
    injection hstep with h1
    injection h1 with h2 h3
    subst h2
    exact h

theorem Inv_on_partial_upload {s : FileLoadManager} {n : Nat} {r : Int}
    {s' : FileLoadManager} {effs : List Effect}
    (hstep : s.on_partial_upload n r = some (s', effs)) (h : Inv s) : Inv s' := by
  unfold FileLoadManager.on_partial_upload at hstep
  cases hget : s.nodes_container.get n with
  | none =>
    rw [hget] at hstep
    simp only [] at hstep
    injection hstep with h1
    injection h1 with h2 h3
    subst h2
    exact h
  | some node =>
    rw [hget] at hstep
    simp only [] at hstep
    injection hstep with h1
    injection h1 with h2 h3
    subst h2
    exact h

theorem Inv_on_ok_download {s : FileLoadManager} {n : Nat} {sz : Int} {inew : Bool}
    {s' : FileLoadManager} {effs : List Effect}
    (hstep : s.on_ok_download n sz inew = some (s', effs)) (h : Inv s) : Inv s' := by
  unfold FileLoadManager.on_ok_download at hstep
  cases hget : s.nodes_container.get n with
  | none =>
    rw [hget] at hstep
    simp only [] at hstep
    injection hstep with h1
    injection h1 with h2 h3
    subst h2
    exact h
  | some node =>
    rw [hget] at hstep
    simp only [] at hstep
    cases hclose : s.close_node n with
    | none =>
      rw [hclose] at hstep
      simp only [] at hstep
      cases hstep
    | some s1 =>
      rw [hclose] at hstep
      simp only [] at hstep
      injection hstep with h1
      injection h1 with h2 h3
      subst h2
      exact Inv_loop (Inv_close_state hclose h)

theorem Inv_on_ok_upload {s : FileLoadManager} {n : Nat} {sz : Int}
    {s' : FileLoadManager} {effs : List Effect}
    (hstep : s.on_ok_upload n sz = some (s', effs)) (h : Inv s) : Inv s' := by
  unfold FileLoadManager.on_ok_upload at hstep
  cases hget : s.nodes_container.get n with
  | none =>
    rw [hget] at hstep
    simp only [] at hstep
    injection hstep with h1
    injection h1 with h2 h3
    subst h2
    exact h
  | some node =>
    rw [hget] at hstep
    simp only [] at hstep
    cases hclose : s.close_node n with
    | none =>
      rw [hclose] at hstep
      simp only [] at hstep
      cases hstep
    | some s1 =>
      rw [hclose] at hstep
      simp only [] at hstep
      injection hstep with h1
      injection h1 with h2 h3
      subst h2
      exact Inv_loop (Inv_close_state hclose h)

theorem Inv_on_ok_upload_full {s : FileLoadManager} {n : Nat}
    {s' : FileLoadManager} {effs : List Effect}
    (hstep : s.on_ok_upload_full n = some (s', effs)) (h : Inv s) : Inv s' := by
  unfold FileLoadManager.on_ok_upload_full at hstep
  cases hget : s.nodes_container.get n with
  | none =>
    rw [hget] at hstep
    simp only [] at hstep
    injection hstep with h1
    injection h1 with h2 h3
    subst h2
    exact h
  | some node =>
    rw [hget] at hstep
    simp only [] at hstep
    cases hclose : s.close_node n with
    | none =>
      rw [hclose] at hstep
      simp only [] at hstep
      cases hstep
    | some s1 =>
      rw [hclose] at hstep
      simp only [] at hstep
      injection hstep with h1
      injection h1 with h2 h3
      subst h2
      exact Inv_loop (Inv_close_state hclose h)

/-- The registry invariant is preserved by every successful step. -/
theorem Inv_step {cfg : Config} {s : FileLoadManager} {m : Msg}
    {s' : FileLoadManager} {effs : List Effect}
    (hstep : step cfg s m = some (s', effs)) (h : Inv s) : Inv s' := by
  cases m <;> simp only [step] at hstep
  case download => exact Inv_download hstep h
  case upload => exact Inv_upload hstep h
  case upload_by_hash => exact Inv_upload_by_hash hstep h
  case from_bytes => exact Inv_from_bytes hstep h
  case update_priority => exact Inv_update_priority hstep h
  case update_local_file_location => exact Inv_update_local_file_location hstep h
  case update_downloaded_part => exact Inv_update_downloaded_part hstep h
  case cancel => exact Inv_cancel hstep h
  case hangup => exact Inv_hangup hstep h
  case on_start_download => exact Inv_on_start_download hstep h
  case on_partial_download => exact Inv_on_partial_download hstep h
  case on_hash => exact Inv_on_hash hstep h
  case on_partial_upload => exact Inv_on_partial_upload hstep h
  case on_ok_download => exact Inv_on_ok_download hstep h
  case on_ok_upload => exact Inv_on_ok_upload hstep h
  case on_ok_upload_full => exact Inv_on_ok_upload_full hstep h
  case on_error => exact Inv_on_error_impl hstep h
  case hangup_shared => exact Inv_on_error_impl hstep h

/-- Reachability from a started coordinator; later steps may read globals that
have changed since start-up, hence the per-step configuration. -/
inductive Reachable : Config → FileLoadManager → Prop
  | start (cfg : Config) : Reachable cfg (FileLoadManager.startUp cfg)
  | next {cfg : Config} (cfg' : Config) {s s' : FileLoadManager} {m : Msg}
      {effs : List Effect} :
      Reachable cfg s → step cfg' s m = some (s', effs) → Reachable cfg s'

theorem Inv_startUp (cfg : Config) : Inv (FileLoadManager.startUp cfg) := by
  refine ⟨?_, ?_, ?_, ?_, ?_⟩ <;> simp [FileLoadManager.startUp]

theorem Inv_reachable {cfg : Config} {s : FileLoadManager} (h : Reachable cfg s) : Inv s := by
  induction h with
  | start => exact Inv_startUp _
  | next cfg' hr hstep ih => exact Inv_step hstep ih

/-! ## Characterizations of the handlers -/

namespace FileLoadManager

theorem download_stop {cfg : Config} {s : FileLoadManager} {q : Nat} {w : Bool} {dc : Nat}
    {sz pr : Int} (h : s.stop_flag = true) :
    download cfg s q w dc sz pr = some (s, []) := by
  unfold download
  rw [if_pos h]

theorem upload_stop {s : FileLoadManager} {q : Nat} {pr : Int} (h : s.stop_flag = true) :
    upload s q pr = some (s, []) := by
  unfold upload
  rw [if_pos h]

theorem upload_by_hash_stop {s : FileLoadManager} {q : Nat} {pr : Int}
    (h : s.stop_flag = true) :
    upload_by_hash s q pr = some (s, []) := by
  unfold upload_by_hash
  rw [if_pos h]

theorem from_bytes_stop {s : FileLoadManager} {q : Nat} (h : s.stop_flag = true) :
    from_bytes s q = some (s, []) := by
  unfold from_bytes
  rw [if_pos h]

theorem update_priority_stop {s : FileLoadManager} {q : Nat} (h : s.stop_flag = true) :
    update_priority s q = some (s, []) := by
  unfold update_priority
  rw [if_pos h]

theorem update_local_file_location_stop {s : FileLoadManager} {q : Nat}
    (h : s.stop_flag = true) :
    update_local_file_location s q = some (s, []) := by
  unfold update_local_file_location
  rw [if_pos h]

theorem update_downloaded_part_stop {s : FileLoadManager} {q : Nat}
    (h : s.stop_flag = true) :
    update_downloaded_part s q = some (s, []) := by
  unfold update_downloaded_part
  rw [if_pos h]

theorem cancel_stop {s : FileLoadManager} {q : Nat} (h : s.stop_flag = true) :
    cancel s q = some (s, []) := by
  unfold cancel
  rw [if_pos h]

/-- A creation on a token that already maps to a live job trips
`CHECK(is_inserted)`. -/
theorem download_dup {cfg : Config} {s : FileLoadManager} {q : Nat} {w : Bool} {dc : Nat}
    {sz pr : Int} (h1 : s.stop_flag = false)
    (h2 : (lookupKey q s.query_id_to_node_id).isSome) :
    download cfg s q w dc sz pr = none := by
  have h1' : ¬ s.stop_flag = true := by rw [h1]; exact Bool.false_ne_true
  unfold download
  rw [if_neg h1']
  simp only [get_drm_qmap]
  rw [if_pos h2]

theorem upload_dup {s : FileLoadManager} {q : Nat} {pr : Int} (h1 : s.stop_flag = false)
    (h2 : (lookupKey q s.query_id_to_node_id).isSome) :
    upload s q pr = none := by
  have h1' : ¬ s.stop_flag = true := by rw [h1]; exact Bool.false_ne_true
  unfold upload
  rw [if_neg h1']
  simp only []
  rw [if_pos h2]

theorem upload_by_hash_dup {s : FileLoadManager} {q : Nat} {pr : Int}
    (h1 : s.stop_flag = false)
    (h2 : (lookupKey q s.query_id_to_node_id).isSome) :
    upload_by_hash s q pr = none := by
  have h1' : ¬ s.stop_flag = true := by rw [h1]; exact Bool.false_ne_true
  unfold upload_by_hash
  rw [if_neg h1']
  simp only []
  rw [if_pos h2]

theorem from_bytes_dup {s : FileLoadManager} {q : Nat} (h1 : s.stop_flag = false)
    (h2 : (lookupKey q s.query_id_to_node_id).isSome) :
    from_bytes s q = none := by
  have h1' : ¬ s.stop_flag = true := by rw [h1]; exact Bool.false_ne_true
  unfold from_bytes
  rw [if_neg h1']
  simp only []
  rw [if_pos h2]

/-- A successful creation through `download` on a fresh token. -/
theorem download_fresh {cfg : Config} {s : FileLoadManager} {q : Nat} {w : Bool} {dc : Nat}
    {sz pr : Int} (h1 : s.stop_flag = false)
    (h2 : lookupKey q s.query_id_to_node_id = none) :
    download cfg s q w dc sz pr =
      some ({ ({ s with nodes_container :=
                  ⟨s.nodes_container.next_id + 1,
                   (s.nodes_container.next_id, ⟨q, true⟩) :: s.nodes_container.items⟩ }
              : FileLoadManager).get_download_resource_manager (download_is_small sz)
                (if w then cfg.webfile_dc_id else dc) |>.1 with
              query_id_to_node_id := (q, s.nodes_container.next_id) :: s.query_id_to_node_id },
            [Effect.register_worker
              (({ s with nodes_container :=
                  ⟨s.nodes_container.next_id + 1,
                   (s.nodes_container.next_id, ⟨q, true⟩) :: s.nodes_container.items⟩ }
                : FileLoadManager).get_download_resource_manager (download_is_small sz)
                  (if w then cfg.webfile_dc_id else dc) |>.2).pool_id pr]) := by
  have h1' : ¬ s.stop_flag = true := by rw [h1]; exact Bool.false_ne_true
  have h2' : ¬ (lookupKey q s.query_id_to_node_id).isSome = true := by
    rw [h2]; exact Bool.false_ne_true
  unfold download
  rw [if_neg h1']
  simp only [get_drm_qmap, Container.create]
  rw [if_neg h2']

/-- A successful creation through `upload` on a fresh token. -/
theorem upload_fresh {s : FileLoadManager} {q : Nat} {pr : Int}
    (h1 : s.stop_flag = false)
    (h2 : lookupKey q s.query_id_to_node_id = none) :
    upload s q pr =
      some ({ s with
                nodes_container :=
                  ⟨s.nodes_container.next_id + 1,
                   (s.nodes_container.next_id, ⟨q, true⟩) :: s.nodes_container.items⟩
                query_id_to_node_id := (q, s.nodes_container.next_id) :: s.query_id_to_node_id },
            [Effect.register_worker s.upload_resource_manager.pool_id pr]) := by
  have h1' : ¬ s.stop_flag = true := by rw [h1]; exact Bool.false_ne_true
  have h2' : ¬ (lookupKey q s.query_id_to_node_id).isSome = true := by
    rw [h2]; exact Bool.false_ne_true
  unfold upload
  rw [if_neg h1']
  simp only [Container.create]
  rw [if_neg h2']

/-- A successful creation through `upload_by_hash` on a fresh token. -/
theorem upload_by_hash_fresh {s : FileLoadManager} {q : Nat} {pr : Int}
    (h1 : s.stop_flag = false)
    (h2 : lookupKey q s.query_id_to_node_id = none) :
    upload_by_hash s q pr =
      some ({ s with
                nodes_container :=
                  ⟨s.nodes_container.next_id + 1,
                   (s.nodes_container.next_id, ⟨q, true⟩) :: s.nodes_container.items⟩
                query_id_to_node_id := (q, s.nodes_container.next_id) :: s.query_id_to_node_id },
            [Effect.register_worker s.upload_resource_manager.pool_id pr]) := by
  have h1' : ¬ s.stop_flag = true := by rw [h1]; exact Bool.false_ne_true
  have h2' : ¬ (lookupKey q s.query_id_to_node_id).isSome = true := by
    rw [h2]; exact Bool.false_ne_true
  unfold upload_by_hash
  rw [if_neg h1']
  simp only [Container.create]
  rw [if_neg h2']

/-- A successful creation through `from_bytes` on a fresh token: no admission
effect at all. -/
theorem from_bytes_fresh {s : FileLoadManager} {q : Nat}
    (h1 : s.stop_flag = false)
    (h2 : lookupKey q s.query_id_to_node_id = none) :
    from_bytes s q =
      some ({ s with
                nodes_container :=
                  ⟨s.nodes_container.next_id + 1,
                   (s.nodes_container.next_id, ⟨q, true⟩) :: s.nodes_container.items⟩
                query_id_to_node_id := (q, s.nodes_container.next_id) :: s.query_id_to_node_id },
            []) := by
  have h1' : ¬ s.stop_flag = true := by rw [h1]; exact Bool.false_ne_true
  have h2' : ¬ (lookupKey q s.query_id_to_node_id).isSome = true := by
    rw [h2]; exact Bool.false_ne_true
  unfold from_bytes
  rw [if_neg h1']
  simp only [Container.create]
  rw [if_neg h2']

theorem on_error_impl_dead {s : FileLoadManager} {n : Nat} (st : String)
    (hget : s.nodes_container.get n = none) :
    s.on_error_impl n st = some (s, []) := by
  unfold on_error_impl
  rw [hget]

theorem on_error_impl_live {s : FileLoadManager} {n : Nat} (st : String) {node : Node}
    (hget : s.nodes_container.get n = some node) :
    s.on_error_impl n st =
      some (FileLoadManager.loop
              { s with
                  query_id_to_node_id := eraseKey node.query_id s.query_id_to_node_id
                  nodes_container := s.nodes_container.erase n },
            if s.stop_flag then []
            else [Effect.callback (CallbackEvent.on_error node.query_id st)]) := by
  unfold on_error_impl
  rw [hget, close_node_isSome hget]

theorem on_ok_download_dead {s : FileLoadManager} {n : Nat} (sz : Int) (inew : Bool)
    (hget : s.nodes_container.get n = none) :
    s.on_ok_download n sz inew = some (s, []) := by
  unfold on_ok_download
  rw [hget]

theorem on_ok_download_live {s : FileLoadManager} {n : Nat} (sz : Int) (inew : Bool)
    {node : Node} (hget : s.nodes_container.get n = some node) :
    s.on_ok_download n sz inew =
      some (FileLoadManager.loop
              { s with
                  query_id_to_node_id := eraseKey node.query_id s.query_id_to_node_id
                  nodes_container := s.nodes_container.erase n },
            if s.stop_flag then []
            else [Effect.callback (CallbackEvent.on_download_ok node.query_id sz inew)]) := by
  unfold on_ok_download
  rw [hget, close_node_isSome hget]

theorem on_ok_upload_dead {s : FileLoadManager} {n : Nat} (sz : Int)
    (hget : s.nodes_container.get n = none) :
    s.on_ok_upload n sz = some (s, []) := by
  unfold on_ok_upload
  rw [hget]

theorem on_ok_upload_live {s : FileLoadManager} {n : Nat} (sz : Int)
    {node : Node} (hget : s.nodes_container.get n = some node) :
    s.on_ok_upload n sz =
      some (FileLoadManager.loop
              { s with
                  query_id_to_node_id := eraseKey node.query_id s.query_id_to_node_id
                  nodes_container := s.nodes_container.erase n },
            if s.stop_flag then []
            else [Effect.callback (CallbackEvent.on_upload_ok node.query_id sz)]) := by
  unfold on_ok_upload
  rw [hget, close_node_isSome hget]

theorem on_ok_upload_full_dead {s : FileLoadManager} {n : Nat}
    (hget : s.nodes_container.get n = none) :
    s.on_ok_upload_full n = some (s, []) := by
  unfold on_ok_upload_full
  rw [hget]

theorem on_ok_upload_full_live {s : FileLoadManager} {n : Nat}
    {node : Node} (hget : s.nodes_container.get n = some node) :
    s.on_ok_upload_full n =
      some (FileLoadManager.loop
              { s with
                  query_id_to_node_id := eraseKey node.query_id s.query_id_to_node_id
                  nodes_container := s.nodes_container.erase n },
            if s.stop_flag then []
            else [Effect.callback (CallbackEvent.on_upload_full_ok node.query_id)]) := by
  unfold on_ok_upload_full
  rw [hget, close_node_isSome hget]

theorem on_start_download_dead {s : FileLoadManager} {n : Nat}
    (hget : s.nodes_container.get n = none) :
    s.on_start_download n = some (s, []) := by
  unfold on_start_download
  rw [hget]

theorem on_start_download_live {s : FileLoadManager} {n : Nat} {node : Node}
    (hget : s.nodes_container.get n = some node) :
    s.on_start_download n =
      some (s, if s.stop_flag then []
               else [Effect.callback (CallbackEvent.on_start_download node.query_id)]) := by
  unfold on_start_download
  rw [hget]

theorem on_partial_download_dead {s : FileLoadManager} {n : Nat} (r sz : Int)
    (hget : s.nodes_container.get n = none) :
    s.on_partial_download n r sz = some (s, []) := by
  unfold on_partial_download
  rw [hget]

theorem on_partial_download_live {s : FileLoadManager} {n : Nat} (r sz : Int) {node : Node}
    (hget : s.nodes_container.get n = some node) :
    s.on_partial_download n r sz =
      some (s, if s.stop_flag then []
               else [Effect.callback (CallbackEvent.on_partial_download node.query_id r sz)]) := by
  unfold on_partial_download
  rw [hget]

theorem on_hash_dead {s : FileLoadManager} {n : Nat} (hs : String)
    (hget : s.nodes_container.get n = none) :
    s.on_hash n hs = some (s, []) := by
  unfold on_hash
  rw [hget]

theorem on_hash_live {s : FileLoadManager} {n : Nat} (hs : String) {node : Node}
    (hget : s.nodes_container.get n = some node) :
    s.on_hash n hs =
      some (s, if s.stop_flag then []
               else [Effect.callback (CallbackEvent.on_hash node.query_id hs)]) := by
  unfold on_hash
  rw [hget]

theorem on_partial_upload_dead {s : FileLoadManager} {n : Nat} (r : Int)
    (hget : s.nodes_container.get n = none) :
    s.on_partial_upload n r = some (s, []) := by
  unfold on_partial_upload
  rw [hget]

theorem on_partial_upload_live {s : FileLoadManager} {n : Nat} (r : Int) {node : Node}
    (hget : s.nodes_container.get n = some node) :
    s.on_partial_upload n r =
      some (s, if s.stop_flag then []
               else [Effect.callback (CallbackEvent.on_partial_upload node.query_id r)]) := by
  unfold on_partial_upload
  rw [hget]

theorem update_priority_unknown {s : FileLoadManager} {q : Nat}
    (h : lookupKey q s.query_id_to_node_id = none) :
    update_priority s q = some (s, []) := by
  unfold update_priority
  by_cases hstop : s.stop_flag
  · rw [if_pos hstop]
  · rw [if_neg hstop, h]

theorem update_local_file_location_unknown {s : FileLoadManager} {q : Nat}
    (h : lookupKey q s.query_id_to_node_id = none) :
    update_local_file_location s q = some (s, []) := by
  unfold update_local_file_location
  by_cases hstop : s.stop_flag
  · rw [if_pos hstop]
  · rw [if_neg hstop, h]

theorem update_downloaded_part_unknown {s : FileLoadManager} {q : Nat}
    (h : lookupKey q s.query_id_to_node_id = none) :
    update_downloaded_part s q = some (s, []) := by
  unfold update_downloaded_part
  by_cases hstop : s.stop_flag
  · rw [if_pos hstop]
  · rw [if_neg hstop, h]

theorem cancel_unknown {s : FileLoadManager} {q : Nat}
    (h : lookupKey q s.query_id_to_node_id = none) :
    cancel s q = some (s, []) := by
  unfold cancel
  by_cases hstop : s.stop_flag
  · rw [if_pos hstop]
  · rw [if_neg hstop, h]

theorem cancel_known {s : FileLoadManager} {q : Nat} {n : Nat}
    (hstop : s.stop_flag = false)
    (h : lookupKey q s.query_id_to_node_id = some n) :
    cancel s q = s.on_error_impl n ("Canceled") := by
  have hstop' : ¬ s.stop_flag = true := by rw [hstop]; exact Bool.false_ne_true
  unfold cancel
  rw [if_neg hstop', h]

theorem hangup_eq (s : FileLoadManager) :
    hangup s =
      some (FileLoadManager.loop
              { s with
                  nodes_container :=
                    ⟨s.nodes_container.next_id,
                     s.nodes_container.items.map (fun p => (p.1, ⟨(p.2).query_id, false⟩))⟩
                  stop_flag := true }, []) := rfl

end FileLoadManager


/-! ## Step-level lemmas -/

theorem pair_eq {s s' : FileLoadManager} {e e' : List Effect}
    (h : (some (s, e) : Option (FileLoadManager × List Effect)) = some (s', e')) :
    s' = s ∧ e' = e := by
  injection h with h1
  injection h1 with h2 h3
  exact ⟨h2.symm, h3.symm⟩

theorem lookupKey_map_loader (k : Nat) (l : List (Nat × Node)) :
    lookupKey k (l.map (fun p => (p.1, (⟨(p.2).query_id, false⟩ : Node)))) =
      (lookupKey k l).map (fun nd => (⟨nd.query_id, false⟩ : Node)) :=
  lookupKey_map_value (fun nd => (⟨nd.query_id, false⟩ : Node)) k l

/-- A delivery token is dead: it resolves to nothing and is below the
allocation counter, so no later creation can revive it. -/
def Dead (s : FileLoadManager) (k : Nat) : Prop :=
  s.nodes_container.get k = none ∧ k < s.nodes_container.next_id

/-- The reclaimed state reached by `close_node` + `loop` keeps dead tokens
dead. -/
theorem Dead_close_loop {s : FileLoadManager} {n : Nat} {node : Node} {k : Nat}
    (hd : Dead s k) :
    Dead (FileLoadManager.loop
            { s with
                query_id_to_node_id := eraseKey node.query_id s.query_id_to_node_id
                nodes_container := s.nodes_container.erase n }) k := by
  obtain ⟨hk, hlt⟩ := hd
  refine ⟨?_, ?_⟩
  · simp only [FileLoadManager.loop_nodes]
    show lookupKey k (eraseKey n s.nodes_container.items) = none
    exact lookupKey_eraseKey_none hk
  · simp only [FileLoadManager.loop_nodes]
    exact hlt

theorem get_close_loop_self (s : FileLoadManager) (n : Nat) (node : Node) :
    (FileLoadManager.loop
        { s with
            query_id_to_node_id := eraseKey node.query_id s.query_id_to_node_id
            nodes_container := s.nodes_container.erase n }).nodes_container.get n = none := by
  simp only [FileLoadManager.loop_nodes]
  show lookupKey n (eraseKey n s.nodes_container.items) = none
  exact lookupKey_eraseKey_self n _

/-- The stop flag is never cleared by a step. -/
theorem step_stop_preserved {cfg : Config} {s : FileLoadManager} {m : Msg}
    {s' : FileLoadManager} {effs : List Effect}
    (hstep : step cfg s m = some (s', effs)) (h : s.stop_flag = true) :
    s'.stop_flag = true := by
  cases m <;> simp only [step, FileLoadManager.hangup_shared] at hstep
  case download q w dc sz off lim pr =>
    rw [FileLoadManager.download_stop h] at hstep
    obtain ⟨rfl, rfl⟩ := pair_eq hstep
    exact h
  case upload q sz pr =>
    rw [FileLoadManager.upload_stop h] at hstep
    obtain ⟨rfl, rfl⟩ := pair_eq hstep
    exact h
  case upload_by_hash q sz pr =>
    rw [FileLoadManager.upload_by_hash_stop h] at hstep
    obtain ⟨rfl, rfl⟩ := pair_eq hstep
    exact h
  case from_bytes q =>
    rw [FileLoadManager.from_bytes_stop h] at hstep
    obtain ⟨rfl, rfl⟩ := pair_eq hstep
    exact h
  case update_priority q pr =>
    rw [FileLoadManager.update_priority_stop h] at hstep
    obtain ⟨rfl, rfl⟩ := pair_eq hstep
    exact h
  case update_local_file_location q =>
    rw [FileLoadManager.update_local_file_location_stop h] at hstep
    obtain ⟨rfl, rfl⟩ := pair_eq hstep
    exact h
  case update_downloaded_part q off lim =>
    rw [FileLoadManager.update_downloaded_part_stop h] at hstep
    obtain ⟨rfl, rfl⟩ := pair_eq hstep
    exact h
  case cancel q =>
    rw [FileLoadManager.cancel_stop h] at hstep
    obtain ⟨rfl, rfl⟩ := pair_eq hstep
    exact h
  case hangup =>
    rw [FileLoadManager.hangup_eq] at hstep
    obtain ⟨rfl, rfl⟩ := pair_eq hstep
    simp [FileLoadManager.loop_stop]
  case on_start_download n =>
    cases hget : s.nodes_container.get n with
    | none =>
      rw [FileLoadManager.on_start_download_dead hget] at hstep
      obtain ⟨rfl, rfl⟩ := pair_eq hstep
      exact h
    | some node =>
      rw [FileLoadManager.on_start_download_live hget] at hstep
      obtain ⟨rfl, rfl⟩ := pair_eq hstep
      exact h
  case on_partial_download n r sz =>
    cases hget : s.nodes_container.get n with
    | none =>
      rw [FileLoadManager.on_partial_download_dead r sz hget] at hstep
      obtain ⟨rfl, rfl⟩ := pair_eq hstep
      exact h
    | some node =>
      rw [FileLoadManager.on_partial_download_live r sz hget] at hstep
      obtain ⟨rfl, rfl⟩ := pair_eq hstep
      exact h
  case on_hash n hs =>
    cases hget : s.nodes_container.get n with
    | none =>
      rw [FileLoadManager.on_hash_dead hs hget] at hstep
      obtain ⟨rfl, rfl⟩ := pair_eq hstep
      exact h
    | some node =>
      rw [FileLoadManager.on_hash_live hs hget] at hstep
      obtain ⟨rfl, rfl⟩ := pair_eq hstep
      exact h
  case on_partial_upload n r =>
    cases hget : s.nodes_container.get n with
    | none =>
      rw [FileLoadManager.on_partial_upload_dead r hget] at hstep
      obtain ⟨rfl, rfl⟩ := pair_eq hstep
      exact h
    | some node =>
      rw [FileLoadManager.on_partial_upload_live r hget] at hstep
      obtain ⟨rfl, rfl⟩ := pair_eq hstep
      exact h
  case on_ok_download n sz inew =>
    cases hget : s.nodes_container.get n with
    | none =>
      rw [FileLoadManager.on_ok_download_dead sz inew hget] at hstep
      obtain ⟨rfl, rfl⟩ := pair_eq hstep
      exact h
    | some node =>
      rw [FileLoadManager.on_ok_download_live sz inew hget] at hstep
      obtain ⟨rfl, rfl⟩ := pair_eq hstep
      simpa [FileLoadManager.loop_stop] using h
  case on_ok_upload n sz =>
    cases hget : s.nodes_container.get n with
    | none =>
      rw [FileLoadManager.on_ok_upload_dead sz hget] at hstep
      obtain ⟨rfl, rfl⟩ := pair_eq hstep
      exact h
    | some node =>
      rw [FileLoadManager.on_ok_upload_live sz hget] at hstep
      obtain ⟨rfl, rfl⟩ := pair_eq hstep
      simpa [FileLoadManager.loop_stop] using h
  case on_ok_upload_full n =>
    cases hget : s.nodes_container.get n with
    | none =>
      rw [FileLoadManager.on_ok_upload_full_dead hget] at hstep
      obtain ⟨rfl, rfl⟩ := pair_eq hstep
      exact h
    | some node =>
      rw [FileLoadManager.on_ok_upload_full_live hget] at hstep
      obtain ⟨rfl, rfl⟩ := pair_eq hstep
      simpa [FileLoadManager.loop_stop] using h
  case on_error n st =>
    cases hget : s.nodes_container.get n with
    | none =>
      rw [FileLoadManager.on_error_impl_dead st hget] at hstep
      obtain ⟨rfl, rfl⟩ := pair_eq hstep
      exact h
    | some node =>
      rw [FileLoadManager.on_error_impl_live st hget] at hstep
      obtain ⟨rfl, rfl⟩ := pair_eq hstep
      simpa [FileLoadManager.loop_stop] using h
  case hangup_shared n =>
    cases hget : s.nodes_container.get n with
    | none =>
      rw [FileLoadManager.on_error_impl_dead ("Canceled") hget] at hstep
      obtain ⟨rfl, rfl⟩ := pair_eq hstep
      exact h
    | some node =>
      rw [FileLoadManager.on_error_impl_live ("Canceled") hget] at hstep
      obtain ⟨rfl, rfl⟩ := pair_eq hstep
      simpa [FileLoadManager.loop_stop] using h

/-- After the stop flag is set, no step ever emits a caller callback. -/
theorem step_no_callback_of_stop {cfg : Config} {s : FileLoadManager} {m : Msg}
    {s' : FileLoadManager} {effs : List Effect}
    (hstep : step cfg s m = some (s', effs)) (h : s.stop_flag = true) :
    ∀ ev, Effect.callback ev ∉ effs := by
  cases m <;> simp only [step, FileLoadManager.hangup_shared] at hstep
  case download q w dc sz off lim pr =>
    rw [FileLoadManager.download_stop h] at hstep
    obtain ⟨rfl, rfl⟩ := pair_eq hstep
    simp
  case upload q sz pr =>
    rw [FileLoadManager.upload_stop h] at hstep
    obtain ⟨rfl, rfl⟩ := pair_eq hstep
    simp
  case upload_by_hash q sz pr =>
    rw [FileLoadManager.upload_by_hash_stop h] at hstep
    obtain ⟨rfl, rfl⟩ := pair_eq hstep
    simp
  case from_bytes q =>
    rw [FileLoadManager.from_bytes_stop h] at hstep
    obtain ⟨rfl, rfl⟩ := pair_eq hstep
    simp
  case update_priority q pr =>
    rw [FileLoadManager.update_priority_stop h] at hstep
    obtain ⟨rfl, rfl⟩ := pair_eq hstep
    simp
  case update_local_file_location q =>
    rw [FileLoadManager.update_local_file_location_stop h] at hstep
    obtain ⟨rfl, rfl⟩ := pair_eq hstep
    simp
  case update_downloaded_part q off lim =>
    rw [FileLoadManager.update_downloaded_part_stop h] at hstep
    obtain ⟨rfl, rfl⟩ := pair_eq hstep
    simp
  case cancel q =>
    rw [FileLoadManager.cancel_stop h] at hstep
    obtain ⟨rfl, rfl⟩ := pair_eq hstep
    simp
  case hangup =>
    rw [FileLoadManager.hangup_eq] at hstep
    obtain ⟨rfl, rfl⟩ := pair_eq hstep
    simp
  case on_start_download n =>
    cases hget : s.nodes_container.get n with
    | none =>
      rw [FileLoadManager.on_start_download_dead hget] at hstep
      obtain ⟨rfl, rfl⟩ := pair_eq hstep
      simp
    | some node =>
      rw [FileLoadManager.on_start_download_live hget] at hstep
      obtain ⟨rfl, rfl⟩ := pair_eq hstep
      simp [h]
  case on_partial_download n r sz =>
    cases hget : s.nodes_container.get n with
    | none =>
      rw [FileLoadManager.on_partial_download_dead r sz hget] at hstep
      obtain ⟨rfl, rfl⟩ := pair_eq hstep
      simp
    | some node =>
      rw [FileLoadManager.on_partial_download_live r sz hget] at hstep
      obtain ⟨rfl, rfl⟩ := pair_eq hstep
      simp [h]
  case on_hash n hs =>
    cases hget : s.nodes_container.get n with
    | none =>
      rw [FileLoadManager.on_hash_dead hs hget] at hstep
      obtain ⟨rfl, rfl⟩ := pair_eq hstep
      simp
    | some node =>
      rw [FileLoadManager.on_hash_live hs hget] at hstep
      obtain ⟨rfl, rfl⟩ := pair_eq hstep
      simp [h]
  case on_partial_upload n r =>
    cases hget : s.nodes_container.get n with
    | none =>
      rw [FileLoadManager.on_partial_upload_dead r hget] at hstep
      obtain ⟨rfl, rfl⟩ := pair_eq hstep
      simp
    | some node =>
      rw [FileLoadManager.on_partial_upload_live r hget] at hstep
      obtain ⟨rfl, rfl⟩ := pair_eq hstep
      simp [h]
  case on_ok_download n sz inew =>
    cases hget : s.nodes_container.get n with
    | none =>
      rw [FileLoadManager.on_ok_download_dead sz inew hget] at hstep
      obtain ⟨rfl, rfl⟩ := pair_eq hstep
      simp
    | some node =>
      rw [FileLoadManager.on_ok_download_live sz inew hget] at hstep
      obtain ⟨rfl, rfl⟩ := pair_eq hstep
      simp [h]
  case on_ok_upload n sz =>
    cases hget : s.nodes_container.get n with
    | none =>
      rw [FileLoadManager.on_ok_upload_dead sz hget] at hstep
      obtain ⟨rfl, rfl⟩ := pair_eq hstep
      simp
    | some node =>
      rw [FileLoadManager.on_ok_upload_live sz hget] at hstep
      obtain ⟨rfl, rfl⟩ := pair_eq hstep
      simp [h]
  case on_ok_upload_full n =>
    cases hget : s.nodes_container.get n with
    | none =>
      rw [FileLoadManager.on_ok_upload_full_dead hget] at hstep
      obtain ⟨rfl, rfl⟩ := pair_eq hstep
      simp
    | some node =>
      rw [FileLoadManager.on_ok_upload_full_live hget] at hstep
      obtain ⟨rfl, rfl⟩ := pair_eq hstep
      simp [h]
  case on_error n st =>
    cases hget : s.nodes_container.get n with
    | none =>
      rw [FileLoadManager.on_error_impl_dead st hget] at hstep
      obtain ⟨rfl, rfl⟩ := pair_eq hstep
      simp
    | some node =>
      rw [FileLoadManager.on_error_impl_live st hget] at hstep
      obtain ⟨rfl, rfl⟩ := pair_eq hstep
      simp [h]
  case hangup_shared n =>
    cases hget : s.nodes_container.get n with
    | none =>
      rw [FileLoadManager.on_error_impl_dead ("Canceled") hget] at hstep
      obtain ⟨rfl, rfl⟩ := pair_eq hstep
      simp
    | some node =>
      rw [FileLoadManager.on_error_impl_live ("Canceled") hget] at hstep
      obtain ⟨rfl, rfl⟩ := pair_eq hstep
      simp [h]

/-- Processing any terminal event leaves its delivery token unresolvable. -/
theorem step_terminal_get_none {cfg : Config} {s : FileLoadManager} {m : Msg}
    {s' : FileLoadManager} {effs : List Effect} {n : Nat}
    (hterm : terminal_token m = some n)
    (hstep : step cfg s m = some (s', effs)) :
    s'.nodes_container.get n = none := by
  cases m <;> simp only [terminal_token] at hterm <;>
    try exact Option.noConfusion hterm
  case on_ok_download tok sz inew =>
    have hn : n = tok := (Option.some.inj hterm).symm
    subst hn
    simp only [step] at hstep
    cases hget : s.nodes_container.get n with
    | none =>
      rw [FileLoadManager.on_ok_download_dead sz inew hget] at hstep
      obtain ⟨rfl, rfl⟩ := pair_eq hstep
      exact hget
    | some node =>
      rw [FileLoadManager.on_ok_download_live sz inew hget] at hstep
      obtain ⟨rfl, rfl⟩ := pair_eq hstep
      exact get_close_loop_self s n node
  case on_ok_upload tok sz =>
    have hn : n = tok := (Option.some.inj hterm).symm
    subst hn
    simp only [step] at hstep
    cases hget : s.nodes_container.get n with
    | none =>
      rw [FileLoadManager.on_ok_upload_dead sz hget] at hstep
      obtain ⟨rfl, rfl⟩ := pair_eq hstep
      exact hget
    | some node =>
      rw [FileLoadManager.on_ok_upload_live sz hget] at hstep
      obtain ⟨rfl, rfl⟩ := pair_eq hstep
      exact get_close_loop_self s n node
  case on_ok_upload_full tok =>
    have hn : n = tok := (Option.some.inj hterm).symm
    subst hn
    simp only [step] at hstep
    cases hget : s.nodes_container.get n with
    | none =>
      rw [FileLoadManager.on_ok_upload_full_dead hget] at hstep
      obtain ⟨rfl, rfl⟩ := pair_eq hstep
      exact hget
    | some node =>
      rw [FileLoadManager.on_ok_upload_full_live hget] at hstep
      obtain ⟨rfl, rfl⟩ := pair_eq hstep
      exact get_close_loop_self s n node
  case on_error tok st =>
    have hn : n = tok := (Option.some.inj hterm).symm
    subst hn
    simp only [step] at hstep
    cases hget : s.nodes_container.get n with
    | none =>
      rw [FileLoadManager.on_error_impl_dead st hget] at hstep
      obtain ⟨rfl, rfl⟩ := pair_eq hstep
      exact hget
    | some node =>
      rw [FileLoadManager.on_error_impl_live st hget] at hstep
      obtain ⟨rfl, rfl⟩ := pair_eq hstep
      exact get_close_loop_self s n node
  case hangup_shared tok =>
    have hn : n = tok := (Option.some.inj hterm).symm
    subst hn
    simp only [step, FileLoadManager.hangup_shared] at hstep
    cases hget : s.nodes_container.get n with
    | none =>
      rw [FileLoadManager.on_error_impl_dead ("Canceled") hget] at hstep
      obtain ⟨rfl, rfl⟩ := pair_eq hstep
      exact hget
    | some node =>
      rw [FileLoadManager.on_error_impl_live ("Canceled") hget] at hstep
      obtain ⟨rfl, rfl⟩ := pair_eq hstep
      exact get_close_loop_self s n node

/-- A worker event whose delivery token does not resolve is dropped: same
state, no effects, no crash. -/
theorem step_dead_noop {cfg : Config} {s : FileLoadManager} {m : Msg} {n : Nat}
    (htok : event_token m = some n)
    (hget : s.nodes_container.get n = none) :
    step cfg s m = some (s, []) := by
  cases m <;> simp only [event_token] at htok <;>
    try exact Option.noConfusion htok
  case on_start_download tok =>
    have hn : n = tok := (Option.some.inj htok).symm
    subst hn
    simp only [step]
    exact FileLoadManager.on_start_download_dead hget
  case on_partial_download tok r sz =>
    have hn : n = tok := (Option.some.inj htok).symm
    subst hn
    simp only [step]
    exact FileLoadManager.on_partial_download_dead r sz hget
  case on_hash tok hs =>
    have hn : n = tok := (Option.some.inj htok).symm
    subst hn
    simp only [step]
    exact FileLoadManager.on_hash_dead hs hget
  case on_partial_upload tok r =>
    have hn : n = tok := (Option.some.inj htok).symm
    subst hn
    simp only [step]
    exact FileLoadManager.on_partial_upload_dead r hget
  case on_ok_download tok sz inew =>
    have hn : n = tok := (Option.some.inj htok).symm
    subst hn
    simp only [step]
    exact FileLoadManager.on_ok_download_dead sz inew hget
  case on_ok_upload tok sz =>
    have hn : n = tok := (Option.some.inj htok).symm
    subst hn
    simp only [step]
    exact FileLoadManager.on_ok_upload_dead sz hget
  case on_ok_upload_full tok =>
    have hn : n = tok := (Option.some.inj htok).symm
    subst hn
    simp only [step]
    exact FileLoadManager.on_ok_upload_full_dead hget
  case on_error tok st =>
    have hn : n = tok := (Option.some.inj htok).symm
    subst hn
    simp only [step]
    exact FileLoadManager.on_error_impl_dead st hget
  case hangup_shared tok =>
    have hn : n = tok := (Option.some.inj htok).symm
    subst hn
    simp only [step, FileLoadManager.hangup_shared]
    exact FileLoadManager.on_error_impl_dead ("Canceled") hget

/-- Dead tokens stay dead across every step. -/
theorem step_dead {cfg : Config} {s : FileLoadManager} {m : Msg}
    {s' : FileLoadManager} {effs : List Effect} {k : Nat}
    (hstep : step cfg s m = some (s', effs)) (hd : Dead s k) : Dead s' k := by
  obtain ⟨hk, hlt⟩ := hd
  have hne : ¬ s.nodes_container.next_id = k := fun he => absurd (he ▸ hlt) (lt_irrefl _)
  cases m <;> simp only [step, FileLoadManager.hangup_shared] at hstep
  case download q w dc sz off lim pr =>
    cases hflag : s.stop_flag with
    | true =>
      rw [FileLoadManager.download_stop hflag] at hstep
      obtain ⟨rfl, rfl⟩ := pair_eq hstep
      exact ⟨hk, hlt⟩
    | false =>
      cases hq : lookupKey q s.query_id_to_node_id with
      | some v =>
        rw [FileLoadManager.download_dup hflag (by rw [hq]; rfl)] at hstep
        cases hstep
      | none =>
        rw [FileLoadManager.download_fresh hflag hq] at hstep
        obtain ⟨rfl, rfl⟩ := pair_eq hstep
        constructor
        · show (({ s with nodes_container := _ } : FileLoadManager).get_download_resource_manager
            _ _).1.nodes_container.get k = none
          rw [FileLoadManager.get_drm_nodes]
          show lookupKey k ((s.nodes_container.next_id, ⟨q, true⟩) :: s.nodes_container.items) = none
          simp [hne]
          exact hk
        · show k < (({ s with nodes_container := _ } : FileLoadManager).get_download_resource_manager
            _ _).1.nodes_container.next_id
          rw [FileLoadManager.get_drm_nodes]
          exact Nat.lt_succ_of_lt hlt
  case upload q sz pr =>
    cases hflag : s.stop_flag with
    | true =>
      rw [FileLoadManager.upload_stop hflag] at hstep
      obtain ⟨rfl, rfl⟩ := pair_eq hstep
      exact ⟨hk, hlt⟩
    | false =>
      cases hq : lookupKey q s.query_id_to_node_id with
      | some v =>
        rw [FileLoadManager.upload_dup hflag (by rw [hq]; rfl)] at hstep
        cases hstep
      | none =>
        rw [FileLoadManager.upload_fresh hflag hq] at hstep
        obtain ⟨rfl, rfl⟩ := pair_eq hstep
        constructor
        · show lookupKey k ((s.nodes_container.next_id, ⟨q, true⟩) :: s.nodes_container.items) = none
          simp [hne]
          exact hk
        · exact Nat.lt_succ_of_lt hlt
  case upload_by_hash q sz pr =>
    cases hflag : s.stop_flag with
    | true =>
      rw [FileLoadManager.upload_by_hash_stop hflag] at hstep
      obtain ⟨rfl, rfl⟩ := pair_eq hstep
      exact ⟨hk, hlt⟩
    | false =>
      cases hq : lookupKey q s.query_id_to_node_id with
      | some v =>
        rw [FileLoadManager.upload_by_hash_dup hflag (by rw [hq]; rfl)] at hstep
        cases hstep
      | none =>
        rw [FileLoadManager.upload_by_hash_fresh hflag hq] at hstep
        obtain ⟨rfl, rfl⟩ := pair_eq hstep
        constructor
        · show lookupKey k ((s.nodes_container.next_id, ⟨q, true⟩) :: s.nodes_container.items) = none
          simp [hne]
          exact hk
        · exact Nat.lt_succ_of_lt hlt
  case from_bytes q =>
    cases hflag : s.stop_flag with
    | true =>
      rw [FileLoadManager.from_bytes_stop hflag] at hstep
      obtain ⟨rfl, rfl⟩ := pair_eq hstep
      exact ⟨hk, hlt⟩
    | false =>
      cases hq : lookupKey q s.query_id_to_node_id with
      | some v =>
        rw [FileLoadManager.from_bytes_dup hflag (by rw [hq]; rfl)] at hstep
        cases hstep
      | none =>
        rw [FileLoadManager.from_bytes_fresh hflag hq] at hstep
        obtain ⟨rfl, rfl⟩ := pair_eq hstep
        constructor
        · show lookupKey k ((s.nodes_container.next_id, ⟨q, true⟩) :: s.nodes_container.items) = none
          simp [hne]
          exact hk
        · exact Nat.lt_succ_of_lt hlt
  case update_priority q pr =>
    have hid : s' = s := by
      unfold FileLoadManager.update_priority at hstep
      split at hstep
      · exact (pair_eq hstep).1
      · split at hstep
        · exact (pair_eq hstep).1
        · split at hstep
          · exact (pair_eq hstep).1
          · exact (pair_eq hstep).1
    rw [hid]
    exact ⟨hk, hlt⟩
  case update_local_file_location q =>
    have hid : s' = s := by
      unfold FileLoadManager.update_local_file_location at hstep
      split at hstep
      · exact (pair_eq hstep).1
      · split at hstep
        · exact (pair_eq hstep).1
        · split at hstep
          · exact (pair_eq hstep).1
          · exact (pair_eq hstep).1
    rw [hid]
    exact ⟨hk, hlt⟩
  case update_downloaded_part q off lim =>
    have hid : s' = s := by
      unfold FileLoadManager.update_downloaded_part at hstep
      split at hstep
      · exact (pair_eq hstep).1
      · split at hstep
        · exact (pair_eq hstep).1
        · split at hstep
          · exact (pair_eq hstep).1
          · exact (pair_eq hstep).1
    rw [hid]
    exact ⟨hk, hlt⟩
  case cancel q =>
    cases hflag : s.stop_flag with
    | true =>
      rw [FileLoadManager.cancel_stop hflag] at hstep
      obtain ⟨rfl, rfl⟩ := pair_eq hstep
      exact ⟨hk, hlt⟩
    | false =>
      cases hq : lookupKey q s.query_id_to_node_id with
      | none =>
        rw [FileLoadManager.cancel_unknown hq] at hstep
        obtain ⟨rfl, rfl⟩ := pair_eq hstep
        exact ⟨hk, hlt⟩
      | some node_id =>
        rw [FileLoadManager.cancel_known hflag hq] at hstep
        cases hget2 : s.nodes_container.get node_id with
        | none =>
          rw [FileLoadManager.on_error_impl_dead ("Canceled") hget2] at hstep
          obtain ⟨rfl, rfl⟩ := pair_eq hstep
          exact ⟨hk, hlt⟩
        | some node =>
          rw [FileLoadManager.on_error_impl_live ("Canceled") hget2] at hstep
          obtain ⟨rfl, rfl⟩ := pair_eq hstep
          exact Dead_close_loop ⟨hk, hlt⟩
  case hangup =>
    rw [FileLoadManager.hangup_eq] at hstep
    obtain ⟨rfl, rfl⟩ := pair_eq hstep
    constructor
    · simp only [FileLoadManager.loop_nodes]
      show lookupKey k (s.nodes_container.items.map
        (fun p => (p.1, (⟨(p.2).query_id, false⟩ : Node)))) = none
      rw [lookupKey_map_loader]
      have hk' : lookupKey k s.nodes_container.items = none := hk
      rw [hk']
      rfl
    · simp only [FileLoadManager.loop_nodes]
      exact hlt
  case on_start_download n =>
    cases hget : s.nodes_container.get n with
    | none =>
      rw [FileLoadManager.on_start_download_dead hget] at hstep
      obtain ⟨rfl, rfl⟩ := pair_eq hstep
      exact ⟨hk, hlt⟩
    | some node =>
      rw [FileLoadManager.on_start_download_live hget] at hstep
      obtain ⟨rfl, rfl⟩ := pair_eq hstep
      exact ⟨hk, hlt⟩
  case on_partial_download n r sz =>
    cases hget : s.nodes_container.get n with
    | none =>
      rw [FileLoadManager.on_partial_download_dead r sz hget] at hstep
      obtain ⟨rfl, rfl⟩ := pair_eq hstep
      exact ⟨hk, hlt⟩
    | some node =>
      rw [FileLoadManager.on_partial_download_live r sz hget] at hstep
      obtain ⟨rfl, rfl⟩ := pair_eq hstep
      exact ⟨hk, hlt⟩
  case on_hash n hs =>
    cases hget : s.nodes_container.get n with
    | none =>
      rw [FileLoadManager.on_hash_dead hs hget] at hstep
      obtain ⟨rfl, rfl⟩ := pair_eq hstep
      exact ⟨hk, hlt⟩
    | some node =>
      rw [FileLoadManager.on_hash_live hs hget] at hstep
      obtain ⟨rfl, rfl⟩ := pair_eq hstep
      exact ⟨hk, hlt⟩
  case on_partial_upload n r =>
    cases hget : s.nodes_container.get n with
    | none =>
      rw [FileLoadManager.on_partial_upload_dead r hget] at hstep
      obtain ⟨rfl, rfl⟩ := pair_eq hstep
      exact ⟨hk, hlt⟩
    | some node =>
      rw [FileLoadManager.on_partial_upload_live r hget] at hstep
      obtain ⟨rfl, rfl⟩ := pair_eq hstep
      exact ⟨hk, hlt⟩
  case on_ok_download n sz inew =>
    cases hget : s.nodes_container.get n with
    | none =>
      rw [FileLoadManager.on_ok_download_dead sz inew hget] at hstep
      obtain ⟨rfl, rfl⟩ := pair_eq hstep
      exact ⟨hk, hlt⟩
    | some node =>
      rw [FileLoadManager.on_ok_download_live sz inew hget] at hstep
      obtain ⟨rfl, rfl⟩ := pair_eq hstep
      exact Dead_close_loop ⟨hk, hlt⟩
  case on_ok_upload n sz =>
    cases hget : s.nodes_container.get n with
    | none =>
      rw [FileLoadManager.on_ok_upload_dead sz hget] at hstep
      obtain ⟨rfl, rfl⟩ := pair_eq hstep
      exact ⟨hk, hlt⟩
    | some node =>
      rw [FileLoadManager.on_ok_upload_live sz hget] at hstep
      obtain ⟨rfl, rfl⟩ := pair_eq hstep
      exact Dead_close_loop ⟨hk, hlt⟩
  case on_ok_upload_full n =>
    cases hget : s.nodes_container.get n with
    | none =>
      rw [FileLoadManager.on_ok_upload_full_dead hget] at hstep
      obtain ⟨rfl, rfl⟩ := pair_eq hstep
      exact ⟨hk, hlt⟩
    | some node =>
      rw [FileLoadManager.on_ok_upload_full_live hget] at hstep
      obtain ⟨rfl, rfl⟩ := pair_eq hstep
      exact Dead_close_loop ⟨hk, hlt⟩
  case on_error n st =>
    cases hget : s.nodes_container.get n with
    | none =>
      rw [FileLoadManager.on_error_impl_dead st hget] at hstep
      obtain ⟨rfl, rfl⟩ := pair_eq hstep
      exact ⟨hk, hlt⟩
    | some node =>
      rw [FileLoadManager.on_error_impl_live st hget] at hstep
      obtain ⟨rfl, rfl⟩ := pair_eq hstep
      exact Dead_close_loop ⟨hk, hlt⟩
  case hangup_shared n =>
    cases hget : s.nodes_container.get n with
    | none =>
      rw [FileLoadManager.on_error_impl_dead ("Canceled") hget] at hstep
      obtain ⟨rfl, rfl⟩ := pair_eq hstep
      exact ⟨hk, hlt⟩
    | some node =>
      rw [FileLoadManager.on_error_impl_live ("Canceled") hget] at hstep
      obtain ⟨rfl, rfl⟩ := pair_eq hstep
      exact Dead_close_loop ⟨hk, hlt⟩

/-- Many-step reachability between states (with arbitrary per-step globals). -/
inductive Steps : FileLoadManager → FileLoadManager → Prop
  | refl (s : FileLoadManager) : Steps s s
  | tail {s s' s'' : FileLoadManager} (cfg : Config) (m : Msg) (effs : List Effect) :
      Steps s s' → step cfg s' m = some (s'', effs) → Steps s s''

theorem Steps_dead {s s' : FileLoadManager} {k : Nat} (h : Steps s s') (hd : Dead s k) :
    Dead s' k := by
  induction h with
  | refl => exact hd
  | tail cfg m effs hs hstep ih => exact step_dead hstep ih

theorem Steps_stop {s s' : FileLoadManager} (h : Steps s s') (hs : s.stop_flag = true) :
    s'.stop_flag = true := by
  induction h with
  | refl => exact hs
  | tail cfg m effs hst hstep ih => exact step_stop_preserved hstep ih


/-! ## The resource-pool directory -/

/-- The pool map for a size-class: `download_small_resource_manager_map_` for
small transfers, `download_resource_manager_map_` otherwise. -/
def download_pool_map (s : FileLoadManager) (b : Bool) : List (Nat × ResourceManager) :=
  if b then s.download_small_resource_manager_map else s.download_resource_manager_map

theorem get_drm_hit {s : FileLoadManager} {b : Bool} {d : Nat} {rm : ResourceManager}
    (h : lookupKey d (download_pool_map s b) = some rm) :
    s.get_download_resource_manager b d = (s, rm) := by
  unfold FileLoadManager.get_download_resource_manager
  unfold download_pool_map at h
  simp only []
  rw [h]

theorem get_drm_miss_small {s : FileLoadManager} {d : Nat}
    (h : lookupKey d s.download_small_resource_manager_map = none) :
    s.get_download_resource_manager true d =
      ({ s with
          download_small_resource_manager_map :=
            (d, ⟨s.next_pool_id, s.max_download_resource_limit, Mode.Baseline⟩)
              :: s.download_small_resource_manager_map
          next_pool_id := s.next_pool_id + 1 },
       ⟨s.next_pool_id, s.max_download_resource_limit, Mode.Baseline⟩) := by
  unfold FileLoadManager.get_download_resource_manager
  have hsel : (if (true : Bool) then s.download_small_resource_manager_map
      else s.download_resource_manager_map) = s.download_small_resource_manager_map := rfl
  rw [hsel]
  simp only []
  rw [h]
  simp

theorem get_drm_miss_large {s : FileLoadManager} {d : Nat}
    (h : lookupKey d s.download_resource_manager_map = none) :
    s.get_download_resource_manager false d =
      ({ s with
          download_resource_manager_map :=
            (d, ⟨s.next_pool_id, s.max_download_resource_limit, Mode.Baseline⟩)
              :: s.download_resource_manager_map
          next_pool_id := s.next_pool_id + 1 },
       ⟨s.next_pool_id, s.max_download_resource_limit, Mode.Baseline⟩) := by
  unfold FileLoadManager.get_download_resource_manager
  have hsel : (if (false : Bool) then s.download_small_resource_manager_map
      else s.download_resource_manager_map) = s.download_resource_manager_map := rfl
  rw [hsel]
  simp only []
  rw [h]
  simp

/-- Well-formedness of the pool directory: destination keys are unique in each
map, pool identities are globally unique, and below the allocation counter. -/
structure PoolDirInv (small large : List (Nat × ResourceManager)) (np : Nat) : Prop where
  small_keys_nodup : (small.map Prod.fst).Nodup
  large_keys_nodup : (large.map Prod.fst).Nodup
  ids_nodup : ((small ++ large).map (fun p => (p.2).pool_id)).Nodup
  ids_lt : ∀ p ∈ small ++ large, (p.2).pool_id < np

abbrev PoolInv (s : FileLoadManager) : Prop :=
  PoolDirInv s.download_small_resource_manager_map s.download_resource_manager_map
    s.next_pool_id

theorem poolDirInv_insert_small {small large : List (Nat × ResourceManager)} {np : Nat}
    (lim : Int) {d : Nat} (h : PoolDirInv small large np)
    (hd : lookupKey d small = none) :
    PoolDirInv ((d, ⟨np, lim, Mode.Baseline⟩) :: small) large (np + 1) := by
  obtain ⟨h1, h2, h3, h4⟩ := h
  refine ⟨?_, h2, ?_, ?_⟩
  · rw [List.map_cons, List.nodup_cons]
    exact ⟨(lookupKey_eq_none_iff d small).mp hd, h1⟩
  · rw [List.cons_append, List.map_cons, List.nodup_cons]
    refine ⟨fun hmem => ?_, h3⟩
    rcases List.mem_map.mp hmem with ⟨p, hp, hfst⟩
    exact absurd (hfst ▸ h4 p hp) (lt_irrefl _)
  · intro p hp
    rw [List.cons_append, List.mem_cons] at hp
    rcases hp with h' | h'
    · rw [h']
      exact Nat.lt_succ_self _
    · exact Nat.lt_succ_of_lt (h4 p h')

theorem poolDirInv_insert_large {small large : List (Nat × ResourceManager)} {np : Nat}
    (lim : Int) {d : Nat} (h : PoolDirInv small large np)
    (hd : lookupKey d large = none) :
    PoolDirInv small ((d, ⟨np, lim, Mode.Baseline⟩) :: large) (np + 1) := by
  obtain ⟨h1, h2, h3, h4⟩ := h
  have hperm : (small ++ (d, (⟨np, lim, Mode.Baseline⟩ : ResourceManager)) :: large).Perm
      ((d, (⟨np, lim, Mode.Baseline⟩ : ResourceManager)) :: (small ++ large)) :=
    List.perm_middle
  refine ⟨h1, ?_, ?_, ?_⟩
  · rw [List.map_cons, List.nodup_cons]
    exact ⟨(lookupKey_eq_none_iff d large).mp hd, h2⟩
  · rw [(hperm.map (fun p => (p.2).pool_id)).nodup_iff]
    rw [List.map_cons, List.nodup_cons]
    refine ⟨fun hmem => ?_, h3⟩
    rcases List.mem_map.mp hmem with ⟨p, hp, hfst⟩
    exact absurd (hfst ▸ h4 p hp) (lt_irrefl _)
  · intro p hp
    have hp' := (hperm.mem_iff).mp hp
    rcases List.mem_cons.mp hp' with h' | h'
    · rw [h']
      exact Nat.lt_succ_self _
    · exact Nat.lt_succ_of_lt (h4 p h')

/-- Everything a step can do to the pool directory: existing pools survive
untouched, new pools carry the current budget and `Mode::Baseline`, the budget
and the upload manager never change, and well-formedness is preserved. -/
theorem pools_unchanged {s s' : FileLoadManager}
    (h1 : s'.download_small_resource_manager_map = s.download_small_resource_manager_map)
    (h2 : s'.download_resource_manager_map = s.download_resource_manager_map)
    (h3 : s'.next_pool_id = s.next_pool_id)
    (h4 : s'.max_download_resource_limit = s.max_download_resource_limit)
    (h5 : s'.upload_resource_manager = s.upload_resource_manager) :
    (∀ b d rm, lookupKey d (download_pool_map s b) = some rm →
        lookupKey d (download_pool_map s' b) = some rm) ∧
    (∀ b p, p ∈ download_pool_map s' b → p ∈ download_pool_map s b ∨
        ((p.2).max_resource_limit = s.max_download_resource_limit ∧
         (p.2).mode = Mode.Baseline)) ∧
    s'.max_download_resource_limit = s.max_download_resource_limit ∧
    s'.upload_resource_manager = s.upload_resource_manager ∧
    (PoolInv s → PoolInv s') := by
  refine ⟨?_, ?_, h4, h5, ?_⟩
  · intro b d rm h
    cases b <;> simp only [download_pool_map, if_true, if_false, h1, h2] at h ⊢ <;> exact h
  · intro b p hp
    left
    cases b <;> simp only [download_pool_map, if_true, if_false, h1, h2] at hp ⊢ <;> exact hp
  · intro h
    unfold PoolInv at h ⊢
    rw [h1, h2, h3]
    exact h

theorem get_drm_pool_facts (s : FileLoadManager) (b' : Bool) (d' : Nat) :
    (∀ b d rm, lookupKey d (download_pool_map s b) = some rm →
        lookupKey d (download_pool_map (s.get_download_resource_manager b' d').1 b) = some rm) ∧
    (∀ b p, p ∈ download_pool_map (s.get_download_resource_manager b' d').1 b →
        p ∈ download_pool_map s b ∨
        ((p.2).max_resource_limit = s.max_download_resource_limit ∧
         (p.2).mode = Mode.Baseline)) ∧
    (s.get_download_resource_manager b' d').1.max_download_resource_limit =
      s.max_download_resource_limit ∧
    (s.get_download_resource_manager b' d').1.upload_resource_manager =
      s.upload_resource_manager ∧
    (PoolInv s → PoolInv (s.get_download_resource_manager b' d').1) := by
  cases hL : lookupKey d' (download_pool_map s b') with
  | some rm =>
    rw [get_drm_hit hL]
    exact pools_unchanged rfl rfl rfl rfl rfl
  | none =>
    cases b' with
    | true =>
      have hL' : lookupKey d' s.download_small_resource_manager_map = none := hL
      rw [get_drm_miss_small hL']
      refine ⟨?_, ?_, rfl, rfl, ?_⟩
      · intro b d rm h
        cases b with
        | true =>
          have h2 : lookupKey d s.download_small_resource_manager_map = some rm := h
          have hne : ¬ d' = d := by
            intro he
            rw [he] at hL'
            rw [hL'] at h2
            cases h2
          show lookupKey d ((d', (⟨s.next_pool_id, s.max_download_resource_limit,
            Mode.Baseline⟩ : ResourceManager)) :: s.download_small_resource_manager_map) = some rm
          rw [lookupKey_cons, if_neg hne]
          exact h2
        | false => exact h
      · intro b p hp
        cases b with
        | true =>
          have hp2 : p ∈ (d', (⟨s.next_pool_id, s.max_download_resource_limit,
            Mode.Baseline⟩ : ResourceManager)) :: s.download_small_resource_manager_map := hp
          rcases List.mem_cons.mp hp2 with h' | h'
          · right
            rw [h']
            exact ⟨rfl, rfl⟩
          · left
            exact h'
        | false =>
          left
          exact hp
      · intro h
        exact poolDirInv_insert_small s.max_download_resource_limit h hL'
    | false =>
      have hL' : lookupKey d' s.download_resource_manager_map = none := hL
      rw [get_drm_miss_large hL']
      refine ⟨?_, ?_, rfl, rfl, ?_⟩
      · intro b d rm h
        cases b with
        | true => exact h
        | false =>
          have h2 : lookupKey d s.download_resource_manager_map = some rm := h
          have hne : ¬ d' = d := by
            intro he
            rw [he] at hL'
            rw [hL'] at h2
            cases h2
          show lookupKey d ((d', (⟨s.next_pool_id, s.max_download_resource_limit,
            Mode.Baseline⟩ : ResourceManager)) :: s.download_resource_manager_map) = some rm
          rw [lookupKey_cons, if_neg hne]
          exact h2
      · intro b p hp
        cases b with
        | true =>
          left
          exact hp
        | false =>
          have hp2 : p ∈ (d', (⟨s.next_pool_id, s.max_download_resource_limit,
            Mode.Baseline⟩ : ResourceManager)) :: s.download_resource_manager_map := hp
          rcases List.mem_cons.mp hp2 with h' | h'
          · right
            rw [h']
            exact ⟨rfl, rfl⟩
          · left
            exact h'
      · intro h
        exact poolDirInv_insert_large s.max_download_resource_limit h hL'

/-- Pool-directory facts across one step: existing pools survive untouched
with their records, new pools carry the current budget and `Mode::Baseline`,
the budget and the upload manager never change, and `PoolInv` is preserved. -/
theorem step_pools {cfg : Config} {s : FileLoadManager} {m : Msg}
    {s' : FileLoadManager} {effs : List Effect}
    (hstep : step cfg s m = some (s', effs)) :
    (∀ b d rm, lookupKey d (download_pool_map s b) = some rm →
        lookupKey d (download_pool_map s' b) = some rm) ∧
    (∀ b p, p ∈ download_pool_map s' b → p ∈ download_pool_map s b ∨
        ((p.2).max_resource_limit = s.max_download_resource_limit ∧
         (p.2).mode = Mode.Baseline)) ∧
    s'.max_download_resource_limit = s.max_download_resource_limit ∧
    s'.upload_resource_manager = s.upload_resource_manager ∧
    (PoolInv s → PoolInv s') := by
  cases m <;> simp only [step, FileLoadManager.hangup_shared] at hstep
  case download q w dc sz off lim pr =>
    cases hflag : s.stop_flag with
    | true =>
      rw [FileLoadManager.download_stop hflag] at hstep
      obtain ⟨rfl, rfl⟩ := pair_eq hstep
      exact pools_unchanged rfl rfl rfl rfl rfl
    | false =>
      cases hq : lookupKey q s.query_id_to_node_id with
      | some v =>
        rw [FileLoadManager.download_dup hflag (by rw [hq]; rfl)] at hstep
        cases hstep
      | none =>
        rw [FileLoadManager.download_fresh hflag hq] at hstep
        obtain ⟨rfl, rfl⟩ := pair_eq hstep
        exact get_drm_pool_facts
          ({ s with nodes_container :=
              ⟨s.nodes_container.next_id + 1,
               (s.nodes_container.next_id, ⟨q, true⟩) :: s.nodes_container.items⟩ }
            : FileLoadManager)
          (download_is_small sz) (if w then cfg.webfile_dc_id else dc)
  case upload q sz pr =>
    cases hflag : s.stop_flag with
    | true =>
      rw [FileLoadManager.upload_stop hflag] at hstep
      obtain ⟨rfl, rfl⟩ := pair_eq hstep
      exact pools_unchanged rfl rfl rfl rfl rfl
    | false =>
      cases hq : lookupKey q s.query_id_to_node_id with
      | some v =>
        rw [FileLoadManager.upload_dup hflag (by rw [hq]; rfl)] at hstep
        cases hstep
      | none =>
        rw [FileLoadManager.upload_fresh hflag hq] at hstep
        obtain ⟨rfl, rfl⟩ := pair_eq hstep
        exact pools_unchanged rfl rfl rfl rfl rfl
  case upload_by_hash q sz pr =>
    cases hflag : s.stop_flag with
    | true =>
      rw [FileLoadManager.upload_by_hash_stop hflag] at hstep
      obtain ⟨rfl, rfl⟩ := pair_eq hstep
      exact pools_unchanged rfl rfl rfl rfl rfl
    | false =>
      cases hq : lookupKey q s.query_id_to_node_id with
      | some v =>
        rw [FileLoadManager.upload_by_hash_dup hflag (by rw [hq]; rfl)] at hstep
        cases hstep
      | none =>
        rw [FileLoadManager.upload_by_hash_fresh hflag hq] at hstep
        obtain ⟨rfl, rfl⟩ := pair_eq hstep
        exact pools_unchanged rfl rfl rfl rfl rfl
  case from_bytes q =>
    cases hflag : s.stop_flag with
    | true =>
      rw [FileLoadManager.from_bytes_stop hflag] at hstep
      obtain ⟨rfl, rfl⟩ := pair_eq hstep
      exact pools_unchanged rfl rfl rfl rfl rfl
    | false =>
      cases hq : lookupKey q s.query_id_to_node_id with
      | some v =>
        rw [FileLoadManager.from_bytes_dup hflag (by rw [hq]; rfl)] at hstep
        cases hstep
      | none =>
        rw [FileLoadManager.from_bytes_fresh hflag hq] at hstep
        obtain ⟨rfl, rfl⟩ := pair_eq hstep
        exact pools_unchanged rfl rfl rfl rfl rfl
  case update_priority q pr =>
    have hid : s' = s := by
      unfold FileLoadManager.update_priority at hstep
      split at hstep
      · exact (pair_eq hstep).1
      · split at hstep
        · exact (pair_eq hstep).1
        · split at hstep
          · exact (pair_eq hstep).1
          · exact (pair_eq hstep).1
    rw [hid]
    exact pools_unchanged rfl rfl rfl rfl rfl
  case update_local_file_location q =>
    have hid : s' = s := by
      unfold FileLoadManager.update_local_file_location at hstep
      split at hstep
      · exact (pair_eq hstep).1
      · split at hstep
        · exact (pair_eq hstep).1
        · split at hstep
          · exact (pair_eq hstep).1
          · exact (pair_eq hstep).1
    rw [hid]
    exact pools_unchanged rfl rfl rfl rfl rfl
  case update_downloaded_part q off lim =>
    have hid : s' = s := by
      unfold FileLoadManager.update_downloaded_part at hstep
      split at hstep
      · exact (pair_eq hstep).1
      · split at hstep
        · exact (pair_eq hstep).1
        · split at hstep
          · exact (pair_eq hstep).1
          · exact (pair_eq hstep).1
    rw [hid]
    exact pools_unchanged rfl rfl rfl rfl rfl
  case cancel q =>
    cases hflag : s.stop_flag with
    | true =>
      rw [FileLoadManager.cancel_stop hflag] at hstep
      obtain ⟨rfl, rfl⟩ := pair_eq hstep
      exact pools_unchanged rfl rfl rfl rfl rfl
    | false =>
      cases hq : lookupKey q s.query_id_to_node_id with
      | none =>
        rw [FileLoadManager.cancel_unknown hq] at hstep
        obtain ⟨rfl, rfl⟩ := pair_eq hstep
        exact pools_unchanged rfl rfl rfl rfl rfl
      | some node_id =>
        rw [FileLoadManager.cancel_known hflag hq] at hstep
        cases hget2 : s.nodes_container.get node_id with
        | none =>
          rw [FileLoadManager.on_error_impl_dead ("Canceled") hget2] at hstep
          obtain ⟨rfl, rfl⟩ := pair_eq hstep
          exact pools_unchanged rfl rfl rfl rfl rfl
        | some node =>
          rw [FileLoadManager.on_error_impl_live ("Canceled") hget2] at hstep
          obtain ⟨rfl, rfl⟩ := pair_eq hstep
          exact pools_unchanged (by simp) (by simp) (by simp) (by simp) (by simp)
  case hangup =>
    rw [FileLoadManager.hangup_eq] at hstep
    obtain ⟨rfl, rfl⟩ := pair_eq hstep
    exact pools_unchanged (by simp) (by simp) (by simp) (by simp) (by simp)
  case on_start_download n =>
    cases hget : s.nodes_container.get n with
    | none =>
      rw [FileLoadManager.on_start_download_dead hget] at hstep
      obtain ⟨rfl, rfl⟩ := pair_eq hstep
      exact pools_unchanged rfl rfl rfl rfl rfl
    | some node =>
      rw [FileLoadManager.on_start_download_live hget] at hstep
      obtain ⟨rfl, rfl⟩ := pair_eq hstep
      exact pools_unchanged rfl rfl rfl rfl rfl
  case on_partial_download n r sz =>
    cases hget : s.nodes_container.get n with
    | none =>
      rw [FileLoadManager.on_partial_download_dead r sz hget] at hstep
      obtain ⟨rfl, rfl⟩ := pair_eq hstep
      exact pools_unchanged rfl rfl rfl rfl rfl
    | some node =>
      rw [FileLoadManager.on_partial_download_live r sz hget] at hstep
      obtain ⟨rfl, rfl⟩ := pair_eq hstep
      exact pools_unchanged rfl rfl rfl rfl rfl
  case on_hash n hs =>
    cases hget : s.nodes_container.get n with
    | none =>
      rw [FileLoadManager.on_hash_dead hs hget] at hstep
      obtain ⟨rfl, rfl⟩ := pair_eq hstep
      exact pools_unchanged rfl rfl rfl rfl rfl
    | some node =>
      rw [FileLoadManager.on_hash_live hs hget] at hstep
      obtain ⟨rfl, rfl⟩ := pair_eq hstep
      exact pools_unchanged rfl rfl rfl rfl rfl
  case on_partial_upload n r =>
    cases hget : s.nodes_container.get n with
    | none =>
      rw [FileLoadManager.on_partial_upload_dead r hget] at hstep
      obtain ⟨rfl, rfl⟩ := pair_eq hstep
      exact pools_unchanged rfl rfl rfl rfl rfl
    | some node =>
      rw [FileLoadManager.on_partial_upload_live r hget] at hstep
      obtain ⟨rfl, rfl⟩ := pair_eq hstep
      exact pools_unchanged rfl rfl rfl rfl rfl
  case on_ok_download n sz inew =>
    cases hget : s.nodes_container.get n with
    | none =>
      rw [FileLoadManager.on_ok_download_dead sz inew hget] at hstep
      obtain ⟨rfl, rfl⟩ := pair_eq hstep
      exact pools_unchanged rfl rfl rfl rfl rfl
    | some node =>
      rw [FileLoadManager.on_ok_download_live sz inew hget] at hstep
      obtain ⟨rfl, rfl⟩ := pair_eq hstep
      exact pools_unchanged (by simp) (by simp) (by simp) (by simp) (by simp)
  case on_ok_upload n sz =>
    cases hget : s.nodes_container.get n with
    | none =>
      rw [FileLoadManager.on_ok_upload_dead sz hget] at hstep
      obtain ⟨rfl, rfl⟩ := pair_eq hstep
      exact pools_unchanged rfl rfl rfl rfl rfl
    | some node =>
      rw [FileLoadManager.on_ok_upload_live sz hget] at hstep
      obtain ⟨rfl, rfl⟩ := pair_eq hstep
      exact pools_unchanged (by simp) (by simp) (by simp) (by simp) (by simp)
  case on_ok_upload_full n =>
    cases hget : s.nodes_container.get n with
    | none =>
      rw [FileLoadManager.on_ok_upload_full_dead hget] at hstep
      obtain ⟨rfl, rfl⟩ := pair_eq hstep
      exact pools_unchanged rfl rfl rfl rfl rfl
    | some node =>
      rw [FileLoadManager.on_ok_upload_full_live hget] at hstep
      obtain ⟨rfl, rfl⟩ := pair_eq hstep
      exact pools_unchanged (by simp) (by simp) (by simp) (by simp) (by simp)
  case on_error n st =>
    cases hget : s.nodes_container.get n with
    | none =>
      rw [FileLoadManager.on_error_impl_dead st hget] at hstep
      obtain ⟨rfl, rfl⟩ := pair_eq hstep
      exact pools_unchanged rfl rfl rfl rfl rfl
    | some node =>
      rw [FileLoadManager.on_error_impl_live st hget] at hstep
      obtain ⟨rfl, rfl⟩ := pair_eq hstep
      exact pools_unchanged (by simp) (by simp) (by simp) (by simp) (by simp)
  case hangup_shared n =>
    cases hget : s.nodes_container.get n with
    | none =>
      rw [FileLoadManager.on_error_impl_dead ("Canceled") hget] at hstep
      obtain ⟨rfl, rfl⟩ := pair_eq hstep
      exact pools_unchanged rfl rfl rfl rfl rfl
    | some node =>
      rw [FileLoadManager.on_error_impl_live ("Canceled") hget] at hstep
      obtain ⟨rfl, rfl⟩ := pair_eq hstep
      exact pools_unchanged (by simp) (by simp) (by simp) (by simp) (by simp)

theorem PoolInv_startUp (cfg : Config) : PoolInv (FileLoadManager.startUp cfg) := by
  refine ⟨?_, ?_, ?_, ?_⟩ <;> simp [FileLoadManager.startUp]

theorem PoolInv_reachable {cfg : Config} {s : FileLoadManager}
    (h : Reachable cfg s) : PoolInv s := by
  induction h with
  | start => exact PoolInv_startUp _
  | next cfg' hr hstep ih => exact (step_pools hstep).2.2.2.2 ih


/-! ## Derived facts for the claims -/

theorem reachable_capacity {cfg : Config} {s : FileLoadManager} (h : Reachable cfg s) :
    s.max_download_resource_limit =
      (if cfg.is_premium then base_download_resource_limit * 8
       else base_download_resource_limit) ∧
    s.upload_resource_manager =
      ⟨0, MAX_UPLOAD_RESOURCE_LIMIT,
       if cfg.use_file_db then Mode.Baseline else Mode.Greedy⟩ ∧
    (∀ b p, p ∈ download_pool_map s b →
        (p.2).max_resource_limit = s.max_download_resource_limit ∧
        (p.2).mode = Mode.Baseline) := by
  induction h with
  | start =>
    refine ⟨rfl, rfl, ?_⟩
    intro b p hp
    cases b <;> simp [download_pool_map, FileLoadManager.startUp] at hp
  | next cfg' hr hstep ih =>
    obtain ⟨hlim, hup, hent⟩ := ih
    obtain ⟨hmono, hentries, hl, hu, hpi⟩ := step_pools hstep
    refine ⟨by rw [hl, hlim], by rw [hu, hup], ?_⟩
    intro b p hp
    rcases hentries b p hp with h' | h'
    · rw [hl]
      exact hent b p h'
    · rw [hl]
      exact h'

theorem live_lt_next {s : FileLoadManager} {n : Nat} {node : Node} (h : Inv s)
    (hget : s.nodes_container.get n = some node) : n < s.nodes_container.next_id :=
  h.ids_lt (n, node) (mem_of_lookupKey hget)

/-- At most one live node per caller token, at any state satisfying the
invariant. -/
theorem inv_unique_token {s : FileLoadManager} (h : Inv s) {n1 n2 : Nat}
    {node1 node2 : Node}
    (h1 : s.nodes_container.get n1 = some node1)
    (h2 : s.nodes_container.get n2 = some node2)
    (he : node1.query_id = node2.query_id) : n1 = n2 := by
  have m1 := h.node_to_map (n1, node1) (mem_of_lookupKey h1)
  have m2 := h.node_to_map (n2, node2) (mem_of_lookupKey h2)
  have m1' : lookupKey node2.query_id s.query_id_to_node_id = some n1 := by
    rw [← he]
    exact m1
  rw [m2] at m1'
  exact (Option.some.inj m1').symm

/-- The shutdown drain sequence: one loader-death signal per remaining node. -/
def drainMsgs (s : FileLoadManager) : List Msg :=
  s.nodes_container.items.map (fun p => Msg.hangup_shared p.1)

theorem run_drain (cfg : Config) : ∀ (l : List (Nat × Node)) (s : FileLoadManager),
    Inv s → s.stop_flag = true → s.nodes_container.items = l →
    (l = [] → s.stopped = true) →
    ∃ s'', run cfg s (l.map (fun p => Msg.hangup_shared p.1)) = some s'' ∧
      s''.nodes_container.items = [] ∧ s''.stop_flag = true ∧ s''.stopped = true := by
  intro l
  induction l with
  | nil =>
    intro s hInv hstop hitems hstopped
    exact ⟨s, rfl, hitems, hstop, hstopped rfl⟩
  | cons p rest ih =>
    intro s hInv hstop hitems hstopped
    have hget : s.nodes_container.get p.1 = some p.2 := by
      show lookupKey p.1 s.nodes_container.items = some p.2
      rw [hitems, lookupKey_cons, if_pos rfl]
    have hstep2 : step cfg s (Msg.hangup_shared p.1) =
        some (FileLoadManager.loop
                { s with
                    query_id_to_node_id :=
                      eraseKey (p.2).query_id s.query_id_to_node_id
                    nodes_container := s.nodes_container.erase p.1 },
              if s.stop_flag then []
              else [Effect.callback (CallbackEvent.on_error (p.2).query_id ("Canceled"))]) := by
      simp only [step, FileLoadManager.hangup_shared]
      exact FileLoadManager.on_error_impl_live ("Canceled") hget
    have hkey : p.1 ∉ rest.map Prod.fst := by
      have := hInv.ids_nodup
      rw [hitems, List.map_cons, List.nodup_cons] at this
      exact this.1
    have herase : eraseKey p.1 s.nodes_container.items = rest := by
      rw [hitems]
      rw [eraseKey, if_pos rfl]
      exact eraseKey_of_not_mem hkey
    set s2 := FileLoadManager.loop
      { s with
          query_id_to_node_id := eraseKey (p.2).query_id s.query_id_to_node_id
          nodes_container := s.nodes_container.erase p.1 } with hs2
    have hitems2 : s2.nodes_container.items = rest := by
      rw [hs2]
      simp only [FileLoadManager.loop_nodes]
      show eraseKey p.1 s.nodes_container.items = rest
      exact herase
    have hInv2 : Inv s2 := Inv_step hstep2 hInv
    have hstop2 : s2.stop_flag = true := by
      rw [hs2]
      simp only [FileLoadManager.loop_stop]
      exact hstop
    have hstopped2 : rest = [] → s2.stopped = true := by
      intro hrest
      rw [hs2]
      unfold FileLoadManager.loop
      have hcond : (({ s with
            query_id_to_node_id := eraseKey (p.2).query_id s.query_id_to_node_id
            nodes_container := s.nodes_container.erase p.1 }
              : FileLoadManager).stop_flag &&
          ({ s with
            query_id_to_node_id := eraseKey (p.2).query_id s.query_id_to_node_id
            nodes_container := s.nodes_container.erase p.1 }
              : FileLoadManager).nodes_container.empty) = true := by
        show (s.stop_flag && (eraseKey p.1 s.nodes_container.items).isEmpty) = true
        rw [hstop, herase, hrest]
        rfl
      rw [if_pos hcond]
    obtain ⟨s'', hrun, he1, he2, he3⟩ := ih s2 hInv2 hstop2 hitems2 hstopped2
    refine ⟨s'', ?_, he1, he2, he3⟩
    rw [List.map_cons]
    show run cfg s (Msg.hangup_shared p.1 :: rest.map (fun p => Msg.hangup_shared p.1)) = some s''
    unfold run
    rw [hstep2]
    simp only []
    exact hrun


/-- The handle-allocation counter never decreases. -/
theorem step_next_id_mono {cfg : Config} {s : FileLoadManager} {m : Msg}
    {s' : FileLoadManager} {effs : List Effect}
    (hstep : step cfg s m = some (s', effs)) :
    s.nodes_container.next_id ≤ s'.nodes_container.next_id := by
  cases m <;> simp only [step, FileLoadManager.hangup_shared] at hstep
  case download q w dc sz off lim pr =>
    cases hflag : s.stop_flag with
    | true =>
      rw [FileLoadManager.download_stop hflag] at hstep
      obtain ⟨rfl, rfl⟩ := pair_eq hstep
      exact le_refl _
    | false =>
      cases hq : lookupKey q s.query_id_to_node_id with
      | some v =>
        rw [FileLoadManager.download_dup hflag (by rw [hq]; rfl)] at hstep
        cases hstep
      | none =>
        rw [FileLoadManager.download_fresh hflag hq] at hstep
        obtain ⟨rfl, rfl⟩ := pair_eq hstep
        show s.nodes_container.next_id ≤
          (({ s with nodes_container := _ } : FileLoadManager).get_download_resource_manager
            _ _).1.nodes_container.next_id
        rw [FileLoadManager.get_drm_nodes]
        exact Nat.le_succ _
  case upload q sz pr =>
    cases hflag : s.stop_flag with
    | true =>
      rw [FileLoadManager.upload_stop hflag] at hstep
      obtain ⟨rfl, rfl⟩ := pair_eq hstep
      exact le_refl _
    | false =>
      cases hq : lookupKey q s.query_id_to_node_id with
      | some v =>
        rw [FileLoadManager.upload_dup hflag (by rw [hq]; rfl)] at hstep
        cases hstep
      | none =>
        rw [FileLoadManager.upload_fresh hflag hq] at hstep
        obtain ⟨rfl, rfl⟩ := pair_eq hstep
        exact Nat.le_succ _
  case upload_by_hash q sz pr =>
    cases hflag : s.stop_flag with
    | true =>
      rw [FileLoadManager.upload_by_hash_stop hflag] at hstep
      obtain ⟨rfl, rfl⟩ := pair_eq hstep
      exact le_refl _
    | false =>
      cases hq : lookupKey q s.query_id_to_node_id with
      | some v =>
        rw [FileLoadManager.upload_by_hash_dup hflag (by rw [hq]; rfl)] at hstep
        cases hstep
      | none =>
        rw [FileLoadManager.upload_by_hash_fresh hflag hq] at hstep
        obtain ⟨rfl, rfl⟩ := pair_eq hstep
        exact Nat.le_succ _
  case from_bytes q =>
    cases hflag : s.stop_flag with
    | true =>
      rw [FileLoadManager.from_bytes_stop hflag] at hstep
      obtain ⟨rfl, rfl⟩ := pair_eq hstep
      exact le_refl _
    | false =>
      cases hq : lookupKey q s.query_id_to_node_id with
      | some v =>
        rw [FileLoadManager.from_bytes_dup hflag (by rw [hq]; rfl)] at hstep
        cases hstep
      | none =>
        rw [FileLoadManager.from_bytes_fresh hflag hq] at hstep
        obtain ⟨rfl, rfl⟩ := pair_eq hstep
        exact Nat.le_succ _
  case update_priority q pr =>
    have hid : s' = s := by
      unfold FileLoadManager.update_priority at hstep
      split at hstep
      · exact (pair_eq hstep).1
      · split at hstep
        · exact (pair_eq hstep).1
        · split at hstep
          · exact (pair_eq hstep).1
          · exact (pair_eq hstep).1
    rw [hid]
  case update_local_file_location q =>
    have hid : s' = s := by
      unfold FileLoadManager.update_local_file_location at hstep
      split at hstep
      · exact (pair_eq hstep).1
      · split at hstep
        · exact (pair_eq hstep).1
        · split at hstep
          · exact (pair_eq hstep).1
          · exact (pair_eq hstep).1
    rw [hid]
  case update_downloaded_part q off lim =>
    have hid : s' = s := by
      unfold FileLoadManager.update_downloaded_part at hstep
      split at hstep
      · exact (pair_eq hstep).1
      · split at hstep
        · exact (pair_eq hstep).1
        · split at hstep
          · exact (pair_eq hstep).1
          · exact (pair_eq hstep).1
    rw [hid]
  case cancel q =>
    cases hflag : s.stop_flag with
    | true =>
      rw [FileLoadManager.cancel_stop hflag] at hstep
      obtain ⟨rfl, rfl⟩ := pair_eq hstep
      exact le_refl _
    | false =>
      cases hq : lookupKey q s.query_id_to_node_id with
      | none =>
        rw [FileLoadManager.cancel_unknown hq] at hstep
        obtain ⟨rfl, rfl⟩ := pair_eq hstep
        exact le_refl _
      | some node_id =>
        rw [FileLoadManager.cancel_known hflag hq] at hstep
        cases hget2 : s.nodes_container.get node_id with
        | none =>
          rw [FileLoadManager.on_error_impl_dead ("Canceled") hget2] at hstep
          obtain ⟨rfl, rfl⟩ := pair_eq hstep
          exact le_refl _
        | some node =>
          rw [FileLoadManager.on_error_impl_live ("Canceled") hget2] at hstep
          obtain ⟨rfl, rfl⟩ := pair_eq hstep
          simp [FileLoadManager.loop_nodes, Container.erase]
  case hangup =>
    rw [FileLoadManager.hangup_eq] at hstep
    obtain ⟨rfl, rfl⟩ := pair_eq hstep
    simp [FileLoadManager.loop_nodes]
  case on_start_download n =>
    cases hget : s.nodes_container.get n with
    | none =>
      rw [FileLoadManager.on_start_download_dead hget] at hstep
      obtain ⟨rfl, rfl⟩ := pair_eq hstep
      exact le_refl _
    | some node =>
      rw [FileLoadManager.on_start_download_live hget] at hstep
      obtain ⟨rfl, rfl⟩ := pair_eq hstep
      exact le_refl _
  case on_partial_download n r sz =>
    cases hget : s.nodes_container.get n with
    | none =>
      rw [FileLoadManager.on_partial_download_dead r sz hget] at hstep
      obtain ⟨rfl, rfl⟩ := pair_eq hstep
      exact le_refl _
    | some node =>
      rw [FileLoadManager.on_partial_download_live r sz hget] at hstep
      obtain ⟨rfl, rfl⟩ := pair_eq hstep
      exact le_refl _
  case on_hash n hs =>
    cases hget : s.nodes_container.get n with
    | none =>
      rw [FileLoadManager.on_hash_dead hs hget] at hstep
      obtain ⟨rfl, rfl⟩ := pair_eq hstep
      exact le_refl _
    | some node =>
      rw [FileLoadManager.on_hash_live hs hget] at hstep
      obtain ⟨rfl, rfl⟩ := pair_eq hstep
      exact le_refl _
  case on_partial_upload n r =>
    cases hget : s.nodes_container.get n with
    | none =>
      rw [FileLoadManager.on_partial_upload_dead r hget] at hstep
      obtain ⟨rfl, rfl⟩ := pair_eq hstep
      exact le_refl _
    | some node =>
      rw [FileLoadManager.on_partial_upload_live r hget] at hstep
      obtain ⟨rfl, rfl⟩ := pair_eq hstep
      exact le_refl _
  case on_ok_download n sz inew =>
    cases hget : s.nodes_container.get n with
    | none =>
      rw [FileLoadManager.on_ok_download_dead sz inew hget] at hstep
      obtain ⟨rfl, rfl⟩ := pair_eq hstep
      exact le_refl _
    | some node =>
      rw [FileLoadManager.on_ok_download_live sz inew hget] at hstep
      obtain ⟨rfl, rfl⟩ := pair_eq hstep
      simp [FileLoadManager.loop_nodes, Container.erase]
  case on_ok_upload n sz =>
    cases hget : s.nodes_container.get n with
    | none =>
      rw [FileLoadManager.on_ok_upload_dead sz hget] at hstep
      obtain ⟨rfl, rfl⟩ := pair_eq hstep
      exact le_refl _
    | some node =>
      rw [FileLoadManager.on_ok_upload_live sz hget] at hstep
      obtain ⟨rfl, rfl⟩ := pair_eq hstep
      simp [FileLoadManager.loop_nodes, Container.erase]
  case on_ok_upload_full n =>
    cases hget : s.nodes_container.get n with
    | none =>
      rw [FileLoadManager.on_ok_upload_full_dead hget] at hstep
      obtain ⟨rfl, rfl⟩ := pair_eq hstep
      exact le_refl _
    | some node =>
      rw [FileLoadManager.on_ok_upload_full_live hget] at hstep
      obtain ⟨rfl, rfl⟩ := pair_eq hstep
      simp [FileLoadManager.loop_nodes, Container.erase]
  case on_error n st =>
    cases hget : s.nodes_container.get n with
    | none =>
      rw [FileLoadManager.on_error_impl_dead st hget] at hstep
      obtain ⟨rfl, rfl⟩ := pair_eq hstep
      exact le_refl _
    | some node =>
      rw [FileLoadManager.on_error_impl_live st hget] at hstep
      obtain ⟨rfl, rfl⟩ := pair_eq hstep
      simp [FileLoadManager.loop_nodes, Container.erase]
  case hangup_shared n =>
    cases hget : s.nodes_container.get n with
    | none =>
      rw [FileLoadManager.on_error_impl_dead ("Canceled") hget] at hstep
      obtain ⟨rfl, rfl⟩ := pair_eq hstep
      exact le_refl _
    | some node =>
      rw [FileLoadManager.on_error_impl_live ("Canceled") hget] at hstep
      obtain ⟨rfl, rfl⟩ := pair_eq hstep
      simp [FileLoadManager.loop_nodes, Container.erase]


/-! ## Concrete runs -/

/-- A start-up configuration for concrete runs: a file database is configured,
the account is not premium. -/
def cfg0 : Config := ⟨true, false, 0⟩

/-- A start-up configuration with no persistent file database. -/
def cfgNoDb : Config := ⟨false, false, 5⟩

def s_start : FileLoadManager := FileLoadManager.startUp cfg0

/-- A 10 KiB download with caller token 1 to destination 2. -/
def dl1 : Msg := Msg.download 1 false 2 10240 0 100 3

/-- The state after the download of token 1 was created. -/
def s1 : FileLoadManager := (stepD cfg0 s_start dl1).1

/-- The state after a subsequent `hangup` (shutdown requested, job 1 pending). -/
def sH : FileLoadManager := (stepD cfg0 s1 Msg.hangup).1

/-- The state after one 10 KiB download under `cfgNoDb`. -/
def sNoDb : FileLoadManager := (stepD cfgNoDb (FileLoadManager.startUp cfgNoDb) dl1).1

theorem step_s_start_dl1 : step cfg0 s_start dl1 = some (s1, (stepD cfg0 s_start dl1).2) := by
  decide

theorem step_s1_hangup : step cfg0 s1 Msg.hangup = some (sH, (stepD cfg0 s1 Msg.hangup).2) := by
  decide

theorem reach_s1 : Reachable cfg0 s1 :=
  Reachable.next cfg0 (Reachable.start cfg0) step_s_start_dl1

theorem reach_sH : Reachable cfg0 sH :=
  Reachable.next cfg0 reach_s1 step_s1_hangup

example : s1.query_id_to_node_id = [(1, 0)] := by decide
example : s1.nodes_container.items = [(0, ⟨1, true⟩)] := by decide
example : s1.nodes_container.next_id = 1 := by decide
example : s1.download_small_resource_manager_map =
    [(2, ⟨1, base_download_resource_limit, Mode.Baseline⟩)] := by decide
example : s1.download_resource_manager_map = [] := by decide
example : (stepD cfg0 s_start dl1).2 = [Effect.register_worker 1 3] := by decide
example : s1.stop_flag = false := by decide
example : sH.stop_flag = true := by decide
example : sH.stopped = false := by decide
example : sH.nodes_container.items = [(0, ⟨1, false⟩)] := by decide
example : sH.query_id_to_node_id = [(1, 0)] := by decide
example : sNoDb.download_small_resource_manager_map =
    [(2, ⟨1, base_download_resource_limit, Mode.Baseline⟩)] := by decide
example : (stepD cfg0 s1 Msg.hangup).2 = [] := by decide


/-! ## The claims -/

/-- C9: every token-keyed operation (`cancel`, `update_priority`,
`update_local_file_location`, `update_downloaded_part`) on a token with no
live job is a silent no-op: same state, no effect, no error. -/
theorem flm_unknown_token_noop (cfg : Config) {s : FileLoadManager} {t : Nat}
    (pr off lim : Int)
    (hfind : lookupKey t s.query_id_to_node_id = none) :
    step cfg s (Msg.cancel t) = some (s, []) ∧
    step cfg s (Msg.update_priority t pr) = some (s, []) ∧
    step cfg s (Msg.update_local_file_location t) = some (s, []) ∧
    step cfg s (Msg.update_downloaded_part t off lim) = some (s, []) := by
  refine ⟨?_, ?_, ?_, ?_⟩
  · exact FileLoadManager.cancel_unknown hfind
  · exact FileLoadManager.update_priority_unknown hfind
  · exact FileLoadManager.update_local_file_location_unknown hfind
  · exact FileLoadManager.update_downloaded_part_unknown hfind

theorem flm_unknown_token_noop_witness :
    step cfg0 s1 (Msg.cancel 42) = some (s1, []) ∧
    step cfg0 s1 (Msg.update_priority 42 1) = some (s1, []) ∧
    step cfg0 s1 (Msg.update_local_file_location 42) = some (s1, []) ∧
    step cfg0 s1 (Msg.update_downloaded_part 42 2 3) = some (s1, []) :=
  flm_unknown_token_noop cfg0 1 2 3 (by decide)

/-- C10: after the stop flag is set, every caller-facing operation returns
immediately with no effect and no state change (in particular cancel does not
reclaim a live job and creations spawn nothing); the loader-death signal
(`hangup_shared`) is handled exactly as a synthesized Canceled failure, and it
is this signal that removes the job from the registry. -/
theorem flm_post_shutdown_ops_noop (cfg : Config) {s : FileLoadManager}
    (h : s.stop_flag = true) :
    (∀ m, caller_msg m = true → step cfg s m = some (s, [])) ∧
    (∀ n, step cfg s (Msg.hangup_shared n) = step cfg s (Msg.on_error n ("Canceled"))) ∧
    (∀ n node, s.nodes_container.get n = some node →
        step cfg s (Msg.hangup_shared n) =
          some ((stepD cfg s (Msg.hangup_shared n)).1, []) ∧
        (stepD cfg s (Msg.hangup_shared n)).1.nodes_container.get n = none ∧
        lookupKey node.query_id
          (stepD cfg s (Msg.hangup_shared n)).1.query_id_to_node_id = none) := by
  refine ⟨?_, ?_, ?_⟩
  · intro m hm
    cases m <;> simp only [caller_msg] at hm <;>
      try exact absurd hm Bool.false_ne_true
    case download q w dc sz off lim pr =>
      simp only [step]
      exact FileLoadManager.download_stop h
    case upload q sz pr =>
      simp only [step]
      exact FileLoadManager.upload_stop h
    case upload_by_hash q sz pr =>
      simp only [step]
      exact FileLoadManager.upload_by_hash_stop h
    case from_bytes q =>
      simp only [step]
      exact FileLoadManager.from_bytes_stop h
    case update_priority q pr =>
      simp only [step]
      exact FileLoadManager.update_priority_stop h
    case update_local_file_location q =>
      simp only [step]
      exact FileLoadManager.update_local_file_location_stop h
    case update_downloaded_part q off lim =>
      simp only [step]
      exact FileLoadManager.update_downloaded_part_stop h
    case cancel q =>
      simp only [step]
      exact FileLoadManager.cancel_stop h
  · intro n
    rfl
  · intro n node hget
    have hstep : step cfg s (Msg.hangup_shared n) =
        some (FileLoadManager.loop
                { s with
                    query_id_to_node_id := eraseKey node.query_id s.query_id_to_node_id
                    nodes_container := s.nodes_container.erase n }, []) := by
      show s.on_error_impl n ("Canceled") = _
      rw [FileLoadManager.on_error_impl_live ("Canceled") hget, if_pos h]
    have hD : (stepD cfg s (Msg.hangup_shared n)).1 =
        FileLoadManager.loop
          { s with
              query_id_to_node_id := eraseKey node.query_id s.query_id_to_node_id
              nodes_container := s.nodes_container.erase n } := by
      unfold stepD
      rw [hstep]
      rfl
    refine ⟨?_, ?_, ?_⟩
    · rw [hstep, hD]
    · rw [hD]
      exact get_close_loop_self s n node
    · rw [hD]
      simp only [FileLoadManager.loop_qmap]
      exact lookupKey_eraseKey_self _ _

theorem flm_post_shutdown_ops_noop_witness :
    step cfg0 sH (Msg.cancel 1) = some (sH, []) ∧
    step cfg0 sH (Msg.download 9 false 2 100 0 10 1) = some (sH, []) ∧
    step cfg0 sH (Msg.hangup_shared 0) = step cfg0 sH (Msg.on_error 0 ("Canceled")) ∧
    (stepD cfg0 sH (Msg.hangup_shared 0)).1.nodes_container.get 0 = none := by
  obtain ⟨h1, h2, h3⟩ := flm_post_shutdown_ops_noop cfg0 (show sH.stop_flag = true by decide)
  exact ⟨h1 (Msg.cancel 1) rfl, h1 (Msg.download 9 false 2 100 0 10 1) rfl, h2 0,
    (h3 0 ⟨1, false⟩ (by decide)).2.1⟩

/-- C5 counterexample: `from_bytes` creates its job with an empty effect list,
admitting the worker into no resource pool at all, while `upload` on the same
state admits its worker into the upload pool — so the three upload-type
creations do not all use the upload pool. -/
theorem flm_upload_pool_admission_cex :
    step cfg0 s_start (Msg.from_bytes 7) =
      some ((stepD cfg0 s_start (Msg.from_bytes 7)).1, []) ∧
    (stepD cfg0 s_start (Msg.upload 7 100 1)).2 =
      [Effect.register_worker s_start.upload_resource_manager.pool_id 1] := by
  decide

/-- C5 amended: `upload` and `upload_by_hash` admit their workers into the
single shared upload pool; `from_bytes` spawns its worker without admitting it
into any pool. -/
theorem flm_upload_pool_admission (cfg : Config) {s : FileLoadManager} (q : Nat)
    (sz pr : Int) {s1' s2' s3' : FileLoadManager} {e1 e2 e3 : List Effect}
    (hstop : s.stop_flag = false)
    (h1 : step cfg s (Msg.upload q sz pr) = some (s1', e1))
    (h2 : step cfg s (Msg.upload_by_hash q sz pr) = some (s2', e2))
    (h3 : step cfg s (Msg.from_bytes q) = some (s3', e3)) :
    e1 = [Effect.register_worker s.upload_resource_manager.pool_id pr] ∧
    e2 = [Effect.register_worker s.upload_resource_manager.pool_id pr] ∧
    e3 = [] := by
  simp only [step] at h1 h2 h3
  cases hq : lookupKey q s.query_id_to_node_id with
  | some v =>
    rw [FileLoadManager.upload_dup hstop (by rw [hq]; rfl)] at h1
    cases h1
  | none =>
    rw [FileLoadManager.upload_fresh hstop hq] at h1
    rw [FileLoadManager.upload_by_hash_fresh hstop hq] at h2
    rw [FileLoadManager.from_bytes_fresh hstop hq] at h3
    exact ⟨(pair_eq h1).2, (pair_eq h2).2, (pair_eq h3).2⟩

theorem flm_upload_pool_admission_witness :
    (stepD cfg0 s_start (Msg.upload 7 100 1)).2 =
      [Effect.register_worker s_start.upload_resource_manager.pool_id 1] ∧
    (stepD cfg0 s_start (Msg.upload_by_hash 7 100 1)).2 =
      [Effect.register_worker s_start.upload_resource_manager.pool_id 1] ∧
    (stepD cfg0 s_start (Msg.from_bytes 7)).2 = [] := by
  exact flm_upload_pool_admission cfg0 7 100 1 (by decide)
    (show step cfg0 s_start (Msg.upload 7 100 1) =
      some ((stepD cfg0 s_start (Msg.upload 7 100 1)).1,
            (stepD cfg0 s_start (Msg.upload 7 100 1)).2) by decide)
    (show step cfg0 s_start (Msg.upload_by_hash 7 100 1) =
      some ((stepD cfg0 s_start (Msg.upload_by_hash 7 100 1)).1,
            (stepD cfg0 s_start (Msg.upload_by_hash 7 100 1)).2) by decide)
    (show step cfg0 s_start (Msg.from_bytes 7) =
      some ((stepD cfg0 s_start (Msg.from_bytes 7)).1,
            (stepD cfg0 s_start (Msg.from_bytes 7)).2) by decide)

/-- C3 counterexample: after request-shutdown, token 1 still maps to a live
job, yet a second `download` creation with token 1 returns successfully as a
no-op instead of failing the `CHECK` — so duplicate creation on a live token
is not always a fatal invariant violation. -/
theorem flm_duplicate_token_fatal_cex :
    lookupKey 1 sH.query_id_to_node_id = some 0 ∧
    sH.nodes_container.get 0 = some ⟨1, false⟩ ∧
    step cfg0 sH (Msg.download 1 false 2 10240 0 100 3) = some (sH, []) := by
  decide

/-- C3 amended: before shutdown is requested, a second creation (any of the
four kinds) on a token that already maps to a live job trips
`CHECK(is_inserted)` — a fatal invariant violation, modelled as `none`; after
request-shutdown creations are dropped with no effect.  In every reachable
state at most one live job exists per caller token. -/
theorem flm_duplicate_token_fatal (cfg cfg' : Config) {s : FileLoadManager} (t : Nat)
    (w : Bool) (dc : Nat) (sz off lim pr : Int)
    (hreach : Reachable cfg s)
    (hstop : s.stop_flag = false)
    (hlive : (lookupKey t s.query_id_to_node_id).isSome = true) :
    step cfg' s (Msg.download t w dc sz off lim pr) = none ∧
    step cfg' s (Msg.upload t sz pr) = none ∧
    step cfg' s (Msg.upload_by_hash t sz pr) = none ∧
    step cfg' s (Msg.from_bytes t) = none ∧
    (∀ n1 n2 node1 node2, s.nodes_container.get n1 = some node1 →
        s.nodes_container.get n2 = some node2 →
        node1.query_id = node2.query_id → n1 = n2) := by
  refine ⟨?_, ?_, ?_, ?_, ?_⟩
  · show FileLoadManager.download cfg' s t w dc sz pr = none
    exact FileLoadManager.download_dup hstop hlive
  · show FileLoadManager.upload s t pr = none
    exact FileLoadManager.upload_dup hstop hlive
  · show FileLoadManager.upload_by_hash s t pr = none
    exact FileLoadManager.upload_by_hash_dup hstop hlive
  · show FileLoadManager.from_bytes s t = none
    exact FileLoadManager.from_bytes_dup hstop hlive
  · intro n1 n2 node1 node2 h1 h2 he
    exact inv_unique_token (Inv_reachable hreach) h1 h2 he

theorem flm_duplicate_token_fatal_witness :
    step cfg0 s1 (Msg.download 1 false 2 10240 0 100 3) = none ∧
    step cfg0 s1 (Msg.upload 1 10240 3) = none ∧
    step cfg0 s1 (Msg.upload_by_hash 1 10240 3) = none ∧
    step cfg0 s1 (Msg.from_bytes 1) = none := by
  obtain ⟨a, b, c, d, e⟩ := flm_duplicate_token_fatal cfg0 cfg0 1 false 2 10240 0 100 3
    reach_s1 (by decide) (by decide)
  exact ⟨a, b, c, d⟩

/-- C2 counterexample: after request-shutdown the job of token 1 is still live
in the registry, yet cancel(1) emits no event and removes nothing — so a
cancel on a token that resolves to a live job does not always produce the
Canceled failure event. -/
theorem flm_cancel_live_token_cex :
    lookupKey 1 sH.query_id_to_node_id = some 0 ∧
    sH.nodes_container.get 0 = some ⟨1, false⟩ ∧
    step cfg0 sH (Msg.cancel 1) = some (sH, []) := by
  decide

/-- C2 amended: before shutdown is requested, cancel on a token that resolves
to a live job emits exactly one `on_error` callback with text Canceled tagged
with that token, and immediately afterwards the token no longer resolves and
the job's handle no longer resolves; after request-shutdown, cancel is a
no-op. -/
theorem flm_cancel_live_token (cfg cfg' : Config) {s : FileLoadManager} {t n : Nat}
    (hreach : Reachable cfg s)
    (hstop : s.stop_flag = false)
    (hfind : lookupKey t s.query_id_to_node_id = some n) :
    step cfg' s (Msg.cancel t) =
      some ((stepD cfg' s (Msg.cancel t)).1,
            [Effect.callback (CallbackEvent.on_error t ("Canceled"))]) ∧
    lookupKey t ((stepD cfg' s (Msg.cancel t)).1).query_id_to_node_id = none ∧
    ((stepD cfg' s (Msg.cancel t)).1).nodes_container.get n = none := by
  have hInv := Inv_reachable hreach
  obtain ⟨node, hnode, hqid⟩ := hInv.map_to_node (t, n) (mem_of_lookupKey hfind)
  have hget : s.nodes_container.get n = some node := hnode
  have hstop' : ¬ s.stop_flag = true := by
    rw [hstop]
    exact Bool.false_ne_true
  have hstep : step cfg' s (Msg.cancel t) =
      some (FileLoadManager.loop
              { s with
                  query_id_to_node_id := eraseKey node.query_id s.query_id_to_node_id
                  nodes_container := s.nodes_container.erase n },
            [Effect.callback (CallbackEvent.on_error node.query_id ("Canceled"))]) := by
    show FileLoadManager.cancel s t = _
    rw [FileLoadManager.cancel_known hstop hfind,
        FileLoadManager.on_error_impl_live ("Canceled") hget, if_neg hstop']
  rw [hqid] at hstep
  have hD : (stepD cfg' s (Msg.cancel t)).1 =
      FileLoadManager.loop
        { s with
            query_id_to_node_id := eraseKey t s.query_id_to_node_id
            nodes_container := s.nodes_container.erase n } := by
    unfold stepD
    rw [hstep]
    rfl
  refine ⟨?_, ?_, ?_⟩
  · rw [hstep, hD]
  · rw [hD]
    simp only [FileLoadManager.loop_qmap]
    exact lookupKey_eraseKey_self _ _
  · rw [hD]
    simp only [FileLoadManager.loop_nodes]
    show lookupKey n (eraseKey n s.nodes_container.items) = none
    exact lookupKey_eraseKey_self _ _

theorem flm_cancel_live_token_witness :
    step cfg0 s1 (Msg.cancel 1) =
      some ((stepD cfg0 s1 (Msg.cancel 1)).1,
            [Effect.callback (CallbackEvent.on_error 1 ("Canceled"))]) ∧
    lookupKey 1 ((stepD cfg0 s1 (Msg.cancel 1)).1).query_id_to_node_id = none ∧
    ((stepD cfg0 s1 (Msg.cancel 1)).1).nodes_container.get 0 = none :=
  flm_cancel_live_token cfg0 cfg0 reach_s1 (by decide) (by decide)


/-- C1: once a terminal event (completion, failure, or loader death) is
processed for a live job, the job's handle never resolves again: every later
event carrying that delivery token — after any interleaving of further steps —
is dropped with no state change, no effect, and no crash. -/
theorem flm_terminal_event_silences_token (cfg : Config) {s : FileLoadManager} {m : Msg}
    {s' : FileLoadManager} {effs : List Effect} {n : Nat} {node : Node}
    (hInv : Inv s)
    (hterm : terminal_token m = some n)
    (hlive : s.nodes_container.get n = some node)
    (hstep : step cfg s m = some (s', effs)) :
    s'.nodes_container.get n = none ∧
    (∀ s'' cfg' m', Steps s' s'' → event_token m' = some n →
      step cfg' s'' m' = some (s'', [])) := by
  have h1 : s'.nodes_container.get n = none := step_terminal_get_none hterm hstep
  have hmono : s.nodes_container.next_id ≤ s'.nodes_container.next_id :=
    step_next_id_mono hstep
  have hdead : Dead s' n := ⟨h1, lt_of_lt_of_le (live_lt_next hInv hlive) hmono⟩
  refine ⟨h1, ?_⟩
  intro s'' cfg' m' hsteps htok
  exact step_dead_noop htok (Steps_dead hsteps hdead).1

theorem flm_terminal_event_silences_token_witness :
    (stepD cfg0 s1 (Msg.on_ok_download 0 10240 true)).1.nodes_container.get 0 = none ∧
    step cfg0 (stepD cfg0 s1 (Msg.on_ok_download 0 10240 true)).1
      (Msg.on_partial_download 0 1 2) =
      some ((stepD cfg0 s1 (Msg.on_ok_download 0 10240 true)).1, []) := by
  obtain ⟨h1, h2⟩ := flm_terminal_event_silences_token cfg0 (Inv_reachable reach_s1)
    (show terminal_token (Msg.on_ok_download 0 10240 true) = some 0 from rfl)
    (show s1.nodes_container.get 0 = some ⟨1, true⟩ by decide)
    (show step cfg0 s1 (Msg.on_ok_download 0 10240 true) =
      some ((stepD cfg0 s1 (Msg.on_ok_download 0 10240 true)).1,
            (stepD cfg0 s1 (Msg.on_ok_download 0 10240 true)).2) by decide)
  exact ⟨h1, h2 _ cfg0 (Msg.on_partial_download 0 1 2) (Steps.refl _) rfl⟩

/-- C4: `hangup` emits nothing and sets the stop flag; from then on no step
ever emits a caller callback, any terminal event leaves its token
unresolvable, and the drain sequence — one loader-death signal per remaining
job — runs without crashing, empties the registry, and stops the actor. -/
theorem flm_shutdown_drain (cfg : Config) {s : FileLoadManager}
    {s' : FileLoadManager} {effs : List Effect}
    (hInv : Inv s)
    (hstep : step cfg s Msg.hangup = some (s', effs)) :
    effs = [] ∧ s'.stop_flag = true ∧
    (∀ s'', Steps s' s'' → ∀ cfg' m s3 e3, step cfg' s'' m = some (s3, e3) →
        ∀ ev, Effect.callback ev ∉ e3) ∧
    (∀ s'', Steps s' s'' → ∀ cfg' m n s3 e3, terminal_token m = some n →
        step cfg' s'' m = some (s3, e3) → s3.nodes_container.get n = none) ∧
    (run cfg s' (drainMsgs s') = some (runD cfg s' (drainMsgs s')) ∧
     (runD cfg s' (drainMsgs s')).nodes_container.items = [] ∧
     (runD cfg s' (drainMsgs s')).stopped = true) := by
  have hInv' : Inv s' := Inv_step hstep hInv
  have hstop : s'.stop_flag = true := by
    simp only [step] at hstep
    rw [FileLoadManager.hangup_eq] at hstep
    rw [(pair_eq hstep).1]
    simp only [FileLoadManager.loop_stop]
  have heffs : effs = [] := by
    simp only [step] at hstep
    rw [FileLoadManager.hangup_eq] at hstep
    exact (pair_eq hstep).2
  have hstopped : s'.nodes_container.items = [] → s'.stopped = true := by
    intro hempty
    simp only [step] at hstep
    rw [FileLoadManager.hangup_eq] at hstep
    have hs' := (pair_eq hstep).1
    rw [hs'] at hempty ⊢
    simp only [FileLoadManager.loop_nodes] at hempty
    unfold FileLoadManager.loop
    have hcond : (({ s with
        nodes_container :=
          ⟨s.nodes_container.next_id,
           s.nodes_container.items.map (fun p => (p.1, ⟨(p.2).query_id, false⟩))⟩
        stop_flag := true } : FileLoadManager).stop_flag &&
        ({ s with
        nodes_container :=
          ⟨s.nodes_container.next_id,
           s.nodes_container.items.map (fun p => (p.1, ⟨(p.2).query_id, false⟩))⟩
        stop_flag := true } : FileLoadManager).nodes_container.empty) = true := by
      show (true && (s.nodes_container.items.map
        (fun p => (p.1, (⟨(p.2).query_id, false⟩ : Node)))).isEmpty) = true
      rw [show (s.nodes_container.items.map
        (fun p => (p.1, (⟨(p.2).query_id, false⟩ : Node)))) = [] from hempty]
      rfl
    rw [if_pos hcond]
  refine ⟨heffs, hstop, ?_, ?_, ?_⟩
  · intro s'' hsteps cfg' m s3 e3 hstep3 ev
    exact step_no_callback_of_stop hstep3 (Steps_stop hsteps hstop) ev
  · intro s'' hsteps cfg' m n s3 e3 hterm hstep3
    exact step_terminal_get_none hterm hstep3
  · obtain ⟨s'', hrun, hempty, hstop'', hstopped''⟩ :=
      run_drain cfg s'.nodes_container.items s' hInv' hstop rfl hstopped
    have hD : runD cfg s' (drainMsgs s') = s'' := by
      unfold runD drainMsgs
      rw [hrun]
      rfl
    refine ⟨?_, ?_, ?_⟩
    · rw [hD]
      show run cfg s' (drainMsgs s') = some s''
      unfold drainMsgs
      exact hrun
    · rw [hD]
      exact hempty
    · rw [hD]
      exact hstopped''

theorem flm_shutdown_drain_witness :
    (stepD cfg0 s1 Msg.hangup).2 = [] ∧
    sH.stop_flag = true ∧
    (Effect.callback (CallbackEvent.on_start_download 1) ∉
      (stepD cfg0 sH (Msg.on_start_download 0)).2) ∧
    (stepD cfg0 sH (Msg.on_ok_download 0 10240 true)).1.nodes_container.get 0 = none ∧
    (runD cfg0 sH (drainMsgs sH)).nodes_container.items = [] ∧
    (runD cfg0 sH (drainMsgs sH)).stopped = true := by
  obtain ⟨h1, h2, h3, h4, h5⟩ := flm_shutdown_drain cfg0 (Inv_reachable reach_s1)
    (show step cfg0 s1 Msg.hangup = some (sH, (stepD cfg0 s1 Msg.hangup).2) by decide)
  refine ⟨h1, h2, ?_, ?_, h5.2.1, h5.2.2⟩
  · exact h3 sH (Steps.refl _) cfg0 (Msg.on_start_download 0) _ _
      (show step cfg0 sH (Msg.on_start_download 0) =
        some ((stepD cfg0 sH (Msg.on_start_download 0)).1,
              (stepD cfg0 sH (Msg.on_start_download 0)).2) by decide)
      (CallbackEvent.on_start_download 1)
  · exact h4 sH (Steps.refl _) cfg0 (Msg.on_ok_download 0 10240 true) 0 _ _ rfl
      (show step cfg0 sH (Msg.on_ok_download 0 10240 true) =
        some ((stepD cfg0 sH (Msg.on_ok_download 0 10240 true)).1,
              (stepD cfg0 sH (Msg.on_ok_download 0 10240 true)).2) by decide)

/-- C6 counterexample: under a configuration with no persistent file database
(`use_file_db = false`), the claim requires download pools in the unmetered
mode — the mode the source calls `Greedy` and applies when `use_file_db` is
false (it applies it to the upload manager only) — yet the download pool is
created with `Mode::Baseline` (metered). -/
theorem flm_download_pool_capacity_cex :
    cfgNoDb.use_file_db = false ∧
    lookupKey 2 sNoDb.download_small_resource_manager_map =
      some ⟨1, base_download_resource_limit, Mode.Baseline⟩ ∧
    Mode.Baseline ≠ Mode.Greedy := by
  decide

/-- C6 amended: the download budget is fixed at start-up — the base budget
multiplied by 8 exactly when the account is premium at start-up — and every
download pool, whenever created, carries that budget and the metered
`Mode::Baseline`; the unmetered-`Greedy`-when-no-file-database rule applies to
the upload manager.  Steps run under arbitrary later configurations, so later
changes to either external fact never resize existing pools. -/
theorem flm_download_pool_capacity (cfg : Config) {s : FileLoadManager}
    (hreach : Reachable cfg s) :
    s.max_download_resource_limit =
      (if cfg.is_premium then base_download_resource_limit * 8
       else base_download_resource_limit) ∧
    (∀ b p, p ∈ download_pool_map s b →
        (p.2).max_resource_limit = s.max_download_resource_limit ∧
        (p.2).mode = Mode.Baseline) ∧
    s.upload_resource_manager.mode =
      (if cfg.use_file_db then Mode.Baseline else Mode.Greedy) ∧
    s.upload_resource_manager.max_resource_limit = MAX_UPLOAD_RESOURCE_LIMIT := by
  obtain ⟨h1, h2, h3⟩ := reachable_capacity hreach
  exact ⟨h1, h3, by rw [h2], by rw [h2]⟩

theorem flm_download_pool_capacity_witness :
    s1.max_download_resource_limit = base_download_resource_limit ∧
    s1.upload_resource_manager.mode = Mode.Baseline := by
  obtain ⟨h1, h2, h3, h4⟩ := flm_download_pool_capacity cfg0 reach_s1
  constructor
  · rw [h1]
    decide
  · rw [h3]
    decide

/-- C7: the size-class test of `download` is exactly `size < 20 * 1024`
(20480 bytes = 20 KiB): a strictly smaller transfer admits into the
small-download pool of its destination (the large-pool map is untouched), any
other into the large-download pool (the small-pool map is untouched). -/
theorem flm_size_class_threshold (cfg : Config) {s : FileLoadManager} {q : Nat} {w : Bool}
    {dc : Nat} {sz off lim pr : Int} {s' : FileLoadManager} {effs : List Effect}
    (hstop : s.stop_flag = false)
    (hstep : step cfg s (Msg.download q w dc sz off lim pr) = some (s', effs)) :
    (download_is_small sz = true ↔ sz < 20480) ∧
    (download_is_small sz = true →
      (lookupKey (if w then cfg.webfile_dc_id else dc)
        s'.download_small_resource_manager_map).isSome = true ∧
      s'.download_resource_manager_map = s.download_resource_manager_map) ∧
    (download_is_small sz = false →
      (lookupKey (if w then cfg.webfile_dc_id else dc)
        s'.download_resource_manager_map).isSome = true ∧
      s'.download_small_resource_manager_map = s.download_small_resource_manager_map) := by
  have hth : download_is_small sz = true ↔ sz < 20480 := by
    unfold download_is_small
    norm_num
  simp only [step] at hstep
  cases hq : lookupKey q s.query_id_to_node_id with
  | some v =>
    rw [FileLoadManager.download_dup hstop (by rw [hq]; rfl)] at hstep
    cases hstep
  | none =>
    rw [FileLoadManager.download_fresh hstop hq] at hstep
    refine ⟨hth, ?_, ?_⟩
    · intro hb
      rw [hb] at hstep
      cases hL : lookupKey (if w then cfg.webfile_dc_id else dc)
          s.download_small_resource_manager_map with
      | some rm =>
        have hL' : lookupKey (if w then cfg.webfile_dc_id else dc)
            (download_pool_map ({ s with nodes_container :=
              ⟨s.nodes_container.next_id + 1,
               (s.nodes_container.next_id, ⟨q, true⟩) :: s.nodes_container.items⟩ }
              : FileLoadManager) true) = some rm := hL
        rw [get_drm_hit hL'] at hstep
        obtain ⟨rfl, rfl⟩ := pair_eq hstep
        constructor
        · show (lookupKey (if w then cfg.webfile_dc_id else dc)
            s.download_small_resource_manager_map).isSome = true
          rw [hL]
          rfl
        · rfl
      | none =>
        have hL' : lookupKey (if w then cfg.webfile_dc_id else dc)
            (({ s with nodes_container :=
              ⟨s.nodes_container.next_id + 1,
               (s.nodes_container.next_id, ⟨q, true⟩) :: s.nodes_container.items⟩ }
              : FileLoadManager).download_small_resource_manager_map) = none := hL
        rw [get_drm_miss_small hL'] at hstep
        obtain ⟨rfl, rfl⟩ := pair_eq hstep
        constructor
        · show (lookupKey (if w then cfg.webfile_dc_id else dc)
            (((if w then cfg.webfile_dc_id else dc),
              (⟨s.next_pool_id, s.max_download_resource_limit, Mode.Baseline⟩
                : ResourceManager)) :: s.download_small_resource_manager_map)).isSome = true
          rw [lookupKey_cons, if_pos rfl]
          rfl
        · rfl
    · intro hb
      rw [hb] at hstep
      cases hL : lookupKey (if w then cfg.webfile_dc_id else dc)
          s.download_resource_manager_map with
      | some rm =>
        have hL' : lookupKey (if w then cfg.webfile_dc_id else dc)
            (download_pool_map ({ s with nodes_container :=
              ⟨s.nodes_container.next_id + 1,
               (s.nodes_container.next_id, ⟨q, true⟩) :: s.nodes_container.items⟩ }
              : FileLoadManager) false) = some rm := hL
        rw [get_drm_hit hL'] at hstep
        obtain ⟨rfl, rfl⟩ := pair_eq hstep
        constructor
        · show (lookupKey (if w then cfg.webfile_dc_id else dc)
            s.download_resource_manager_map).isSome = true
          rw [hL]
          rfl
        · rfl
      | none =>
        have hL' : lookupKey (if w then cfg.webfile_dc_id else dc)
            (({ s with nodes_container :=
              ⟨s.nodes_container.next_id + 1,
               (s.nodes_container.next_id, ⟨q, true⟩) :: s.nodes_container.items⟩ }
              : FileLoadManager).download_resource_manager_map) = none := hL
        rw [get_drm_miss_large hL'] at hstep
        obtain ⟨rfl, rfl⟩ := pair_eq hstep
        constructor
        · show (lookupKey (if w then cfg.webfile_dc_id else dc)
            (((if w then cfg.webfile_dc_id else dc),
              (⟨s.next_pool_id, s.max_download_resource_limit, Mode.Baseline⟩
                : ResourceManager)) :: s.download_resource_manager_map)).isSome = true
          rw [lookupKey_cons, if_pos rfl]
          rfl
        · rfl

theorem flm_size_class_threshold_witness :
    ((10240 : Int) < 20480) ∧
    (lookupKey 2 (stepD cfg0 s_start
      (Msg.download 1 false 2 10240 0 100 3)).1.download_small_resource_manager_map).isSome
        = true ∧
    (lookupKey 2 (stepD cfg0 s_start
      (Msg.download 1 false 2 51200 0 100 3)).1.download_resource_manager_map).isSome
        = true := by
  obtain ⟨ha, hb, hc⟩ := flm_size_class_threshold cfg0 (by decide)
    (show step cfg0 s_start (Msg.download 1 false 2 10240 0 100 3) =
      some ((stepD cfg0 s_start (Msg.download 1 false 2 10240 0 100 3)).1,
            (stepD cfg0 s_start (Msg.download 1 false 2 10240 0 100 3)).2) by decide)
  obtain ⟨ha2, hb2, hc2⟩ := flm_size_class_threshold cfg0 (by decide)
    (show step cfg0 s_start (Msg.download 1 false 2 51200 0 100 3) =
      some ((stepD cfg0 s_start (Msg.download 1 false 2 51200 0 100 3)).1,
            (stepD cfg0 s_start (Msg.download 1 false 2 51200 0 100 3)).2) by decide)
  exact ⟨ha.mp (by decide), (hb (by decide)).1, (hc2 (by decide)).1⟩

/-- C8: download pools are created lazily on first use, keyed by (size-class,
destination): a hit returns the cached pool with no state change, a miss
creates and caches it; pools at different keys are distinct actors; and every
step keeps every existing pool entry untouched — the maps grow monotonically
and nothing is ever evicted. -/
theorem flm_download_pool_directory (cfg : Config) {s : FileLoadManager}
    (hreach : Reachable cfg s) :
    (∀ b d rm, lookupKey d (download_pool_map s b) = some rm →
        s.get_download_resource_manager b d = (s, rm)) ∧
    (∀ b d, lookupKey d (download_pool_map s b) = none →
        lookupKey d (download_pool_map (s.get_download_resource_manager b d).1 b) =
          some (s.get_download_resource_manager b d).2) ∧
    (∀ b1 d1 rm1 b2 d2 rm2,
        lookupKey d1 (download_pool_map s b1) = some rm1 →
        lookupKey d2 (download_pool_map s b2) = some rm2 →
        ¬(b1 = b2 ∧ d1 = d2) → rm1.pool_id ≠ rm2.pool_id) ∧
    (∀ cfg' m s' effs, step cfg' s m = some (s', effs) →
        ∀ b d rm, lookupKey d (download_pool_map s b) = some rm →
          lookupKey d (download_pool_map s' b) = some rm) := by
  have hPool := PoolInv_reachable hreach
  refine ⟨?_, ?_, ?_, ?_⟩
  · intro b d rm h
    exact get_drm_hit h
  · intro b d h
    cases b with
    | true =>
      have h' : lookupKey d s.download_small_resource_manager_map = none := h
      rw [get_drm_miss_small h']
      show lookupKey d ((d, (⟨s.next_pool_id, s.max_download_resource_limit, Mode.Baseline⟩
        : ResourceManager)) :: s.download_small_resource_manager_map) = some _
      rw [lookupKey_cons, if_pos rfl]
    | false =>
      have h' : lookupKey d s.download_resource_manager_map = none := h
      rw [get_drm_miss_large h']
      show lookupKey d ((d, (⟨s.next_pool_id, s.max_download_resource_limit, Mode.Baseline⟩
        : ResourceManager)) :: s.download_resource_manager_map) = some _
      rw [lookupKey_cons, if_pos rfl]
  · intro b1 d1 rm1 b2 d2 rm2 h1 h2 hkey heq
    have hmap := hPool.ids_nodup
    rw [List.map_append] at hmap
    obtain ⟨hsmall, hlarge, hdisj⟩ := List.nodup_append.mp hmap
    cases b1 <;> cases b2
    · have hne : ¬ d1 = d2 := fun hd => hkey ⟨rfl, hd⟩
      have hm1 : (d1, rm1) ∈ s.download_resource_manager_map := mem_of_lookupKey h1
      have hm2 : (d2, rm2) ∈ s.download_resource_manager_map := mem_of_lookupKey h2
      have := List.inj_on_of_nodup_map hlarge hm1 hm2 heq
      injection this with hda hrm
      exact hne hda
    · have hm1 : (d1, rm1) ∈ s.download_resource_manager_map := mem_of_lookupKey h1
      have hm2 : (d2, rm2) ∈ s.download_small_resource_manager_map := mem_of_lookupKey h2
      exact hdisj (List.mem_map.mpr ⟨(d2, rm2), hm2, rfl⟩)
        (heq ▸ List.mem_map.mpr ⟨(d1, rm1), hm1, rfl⟩)
    · have hm1 : (d1, rm1) ∈ s.download_small_resource_manager_map := mem_of_lookupKey h1
      have hm2 : (d2, rm2) ∈ s.download_resource_manager_map := mem_of_lookupKey h2
      exact hdisj (List.mem_map.mpr ⟨(d1, rm1), hm1, rfl⟩)
        (heq ▸ List.mem_map.mpr ⟨(d2, rm2), hm2, rfl⟩)
    · have hne : ¬ d1 = d2 := fun hd => hkey ⟨rfl, hd⟩
      have hm1 : (d1, rm1) ∈ s.download_small_resource_manager_map := mem_of_lookupKey h1
      have hm2 : (d2, rm2) ∈ s.download_small_resource_manager_map := mem_of_lookupKey h2
      have := List.inj_on_of_nodup_map hsmall hm1 hm2 heq
      injection this with hda hrm
      exact hne hda
  · intro cfg' m s' effs hstep b d rm h
    exact (step_pools hstep).1 b d rm h

theorem flm_download_pool_directory_witness :
    s1.get_download_resource_manager true 2 =
      (s1, ⟨1, base_download_resource_limit, Mode.Baseline⟩) ∧
    lookupKey 3 (download_pool_map (s1.get_download_resource_manager true 3).1 true) =
      some (s1.get_download_resource_manager true 3).2 := by
  obtain ⟨h1, h2, h3, h4⟩ := flm_download_pool_directory cfg0 reach_s1
  exact ⟨h1 true 2 ⟨1, base_download_resource_limit, Mode.Baseline⟩ (by decide),
         h2 true 3 (by decide)⟩


end TdF
